import Mathlib

/-! inject-go: bindings and shape validation.

A shallow embedding of `binding.go` and `common.go` of the `inject` package.

* Go's `reflect.Type` is the inductive `RType`: a name, a method set and a
  shape; the shape carries what `Elem`, `In`, `Out` and `Field` return.
* A Go result `(interface{}, error)` is a pair of options, `none` being `nil`.
* A call that panics in Go (a reflect accessor used on the wrong kind, a failed
  type assertion, a `Call` on arguments that `reflect` does not accept)
  returns `none` at the outer `Option`.
* Code with effects (the injector, the constructor function) passes a world
  state of type `W` explicitly, and `constructorBinding.get` records the
  lookups and the invocation it performs in a trace.
* A pointer `*injector` that a method never uses may be nil, written `none`.
-/

namespace inject

/-! ## Model of `reflect` -/

/-- The kinds of `reflect.Kind`, in Go's order (`rawPointer` is Go's
`UnsafePointer`). -/
inductive Kind where
  | invalid | bool | int | int8 | int16 | int32 | int64
  | uint | uint8 | uint16 | uint32 | uint64 | uintptr
  | float32 | float64 | complex64 | complex128
  | array | chan | func | interface | map | ptr | slice | string | struct
  | rawPointer
  deriving DecidableEq, Repr

/-- A struct tag as `reflect.StructTag` reads it: the `key:"value"` pairs of
the tag string, in order. -/
abbrev StructTag := List (String × String)

/-- The lookup `StructTag.Get key`: the value of the first pair with that key,
and the empty string when there is none. -/
def StructTag.Get (tag : StructTag) (key : String) : String :=
  match tag.find? (fun kv => kv.1 == key) with
  | some kv => kv.2
  | none => ""

/-- The kinds of types without components: the predeclared booleans, numbers
and strings, and Go's `UnsafePointer`. -/
inductive BasicKind where
  | bool | int | int8 | int16 | int32 | int64
  | uint | uint8 | uint16 | uint32 | uint64 | uintptr
  | float32 | float64 | complex64 | complex128
  | string | rawPointer
  deriving DecidableEq, Repr

/-- The `reflect.Kind` of a basic kind. -/
def BasicKind.toKind : BasicKind → Kind
  | .bool => .bool | .int => .int | .int8 => .int8 | .int16 => .int16
  | .int32 => .int32 | .int64 => .int64
  | .uint => .uint | .uint8 => .uint8 | .uint16 => .uint16 | .uint32 => .uint32
  | .uint64 => .uint64 | .uintptr => .uintptr
  | .float32 => .float32 | .float64 => .float64
  | .complex64 => .complex64 | .complex128 => .complex128
  | .string => .string | .rawPointer => .rawPointer

mutual
/-- A `reflect.Type`: `Name()`, the method set, and the shape. -/
inductive RType where
  | mk (name : String) (methods : List String) (shape : Shape)
/-- What a type is made of; the constructor decides `Kind()`. -/
inductive Shape where
  | basic (kind : BasicKind)
  | array (len : Nat) (elem : RType)
  | chan (elem : RType)
  | func (ins : List RType) (outs : List RType)
  | interface
  | map (key : RType) (elem : RType)
  | ptr (elem : RType)
  | slice (elem : RType)
  | struct (fields : List StructField)
/-- A `reflect.StructField`: field name, field type and tag. -/
inductive StructField where
  | mk (name : String) (type : RType) (tag : StructTag)
end

/-- The kind a shape stands for. -/
def Shape.Kind : Shape → Kind
  | .basic k => k.toKind
  | .array _ _ => .array
  | .chan _ => .chan
  | .func _ _ => .func
  | .interface => .interface
  | .map _ _ => .map
  | .ptr _ => .ptr
  | .slice _ => .slice
  | .struct _ => .struct

/-- The shape of a type. -/
def RType.shape : RType → Shape
  | .mk _ _ s => s

/-- The method `Type.Name()`: the empty string for an unnamed type. -/
def RType.Name : RType → String
  | .mk n _ _ => n

/-- The method set of a type (method names stand for name and signature). -/
def RType.methods : RType → List String
  | .mk _ ms _ => ms

/-- The method `Type.Kind()`. -/
def RType.Kind (t : RType) : Kind := t.shape.Kind

/-- The method `Type.Elem()`; it panics unless the type is an array, chan, map,
pointer or slice. -/
def RType.Elem (t : RType) : Option RType :=
  match t.shape with
  | .array _ e => some e
  | .chan e => some e
  | .map _ e => some e
  | .ptr e => some e
  | .slice e => some e
  | _ => none

/-- The parameter types `In(0), ..., In(NumIn()-1)`; `NumIn` and `In` panic
unless the type is a function. -/
def RType.Ins (t : RType) : Option (List RType) :=
  match t.shape with
  | .func ins _ => some ins
  | _ => none

/-- The method `Type.NumIn()`. -/
def RType.NumIn (t : RType) : Option Nat := t.Ins.map List.length

/-- The method `Type.In(i)`; it panics when `i` is out of range. -/
def RType.In (t : RType) (i : Nat) : Option RType := t.Ins.bind (fun ins => ins[i]?)

/-- The fields `Field(0), ..., Field(NumField()-1)`; `NumField` and `Field`
panic unless the type is a struct. -/
def RType.Fields (t : RType) : Option (List StructField) :=
  match t.shape with
  | .struct fields => some fields
  | _ => none

/-- The field `StructField.Type`. -/
def StructField.Type : StructField → RType
  | .mk _ t _ => t

/-- The field `StructField.Tag`. -/
def StructField.Tag : StructField → StructTag
  | .mk _ _ tag => tag

mutual
/-- Identity of two types: the same name, method set and shape. -/
def RType.beq : RType → RType → Bool
  | .mk n ms s, .mk n2 ms2 s2 => n == n2 && ms == ms2 && Shape.beq s s2
termination_by structural t => t
/-- Identity of two shapes. -/
def Shape.beq : Shape → Shape → Bool
  | .basic k, .basic k2 => k == k2
  | .array len e, .array len2 e2 => len == len2 && RType.beq e e2
  | .chan e, .chan e2 => RType.beq e e2
  | .func ins outs, .func ins2 outs2 => RType.beqList ins ins2 && RType.beqList outs outs2
  | .interface, .interface => true
  | .map k e, .map k2 e2 => RType.beq k k2 && RType.beq e e2
  | .ptr e, .ptr e2 => RType.beq e e2
  | .slice e, .slice e2 => RType.beq e e2
  | .struct fields, .struct fields2 => StructField.beqList fields fields2
  | _, _ => false
termination_by structural s => s
/-- Identity of two struct fields. -/
def StructField.beq : StructField → StructField → Bool
  | .mk n t tag, .mk n2 t2 tag2 => n == n2 && RType.beq t t2 && tag == tag2
termination_by structural f => f
/-- Identity of two lists of types, entry by entry. -/
def RType.beqList : List RType → List RType → Bool
  | [], [] => true
  | t :: ts, t2 :: ts2 => RType.beq t t2 && RType.beqList ts ts2
  | _, _ => false
termination_by structural ts => ts
/-- Identity of two lists of struct fields, entry by entry. -/
def StructField.beqList : List StructField → List StructField → Bool
  | [], [] => true
  | f :: fs, f2 :: fs2 => StructField.beq f f2 && StructField.beqList fs fs2
  | _, _ => false
termination_by structural fs => fs
end

/-- The function `reflect.PtrTo t`: the unnamed pointer type with element `t`.
A pointer to an interface has an empty method set; for any other element the
model keeps the element's method set on the pointer. -/
def PtrTo (t : RType) : RType :=
  .mk "" (if t.Kind = .interface then [] else t.methods) (.ptr t)

/-- The method `t.AssignableTo(u)`, after Go's assignability of a value of
type `t` to type `u`: the types are identical; or their underlying types are
identical and one of the two is unnamed; or `u` is an interface type and `t`
implements it, that is, every method of `u` is in the method set of `t`. -/
def RType.AssignableTo (t u : RType) : Bool :=
  t.beq u || (t.shape.beq u.shape && (t.Name == "" || u.Name == ""))
    || (u.Kind == Kind.interface && u.methods.all (fun m => t.methods.contains m))

/-! ## Errors and binding keys (declared outside the two source files) -/

/-- Modelled from the spec: the error types named by the two source files (the
spec's section 7 lists them as distinct kinds); their declarations are not in
the source at hand. -/
inductive InjectErrorType where
  | InjectErrorTypeIntermediateBinding
  | InjectErrorTypeFinalBinding
  | injectErrorTypeNotFunction
  | injectErrorTypeTaggedParametersInvalid
  | injectErrorTypeNotSupportedYet
  deriving DecidableEq, Repr

export InjectErrorType (InjectErrorTypeIntermediateBinding InjectErrorTypeFinalBinding
  injectErrorTypeNotFunction injectErrorTypeTaggedParametersInvalid
  injectErrorTypeNotSupportedYet)

/-- Modelled from the spec: a binding key (the spec's dependency identity) is a
type descriptor with a qualifier, the empty string when untagged; the type
`bindingKey` is declared outside the source at hand. -/
structure BindingKey where
  reflectType : RType
  tag : String

/-- Modelled from the spec: `newBindingKey` builds the untagged identity. -/
def newBindingKey (reflectType : RType) : BindingKey := ⟨reflectType, ""⟩

/-- Modelled from the spec: `newTaggedBindingKey` builds the qualified
identity. -/
def newTaggedBindingKey (reflectType : RType) (tag : String) : BindingKey :=
  ⟨reflectType, tag⟩

/-- A value attached to an error under a tag name. -/
inductive TagValue where
  | ofBindingKey (bk : BindingKey)
  | ofType (t : RType)

/-- A Go `error` value: one built by this package, with its type and tags, or
any other error (a constructor or the injector may return one). -/
inductive GoError where
  | injectError (errorType : InjectErrorType) (tags : List (String × TagValue))
  | other (msg : String)

/-- The type of a package error; `none` for a foreign error. -/
def GoError.errorType : GoError → Option InjectErrorType
  | .injectError t _ => some t
  | .other _ => none

/-- The tags of a package error. -/
def GoError.tags : GoError → List (String × TagValue)
  | .injectError _ tags => tags
  | .other _ => []

/-- Modelled from the spec: the error builder (`newErrorBuilder`, `addTag`,
`build`) is declared outside the source at hand; it collects an error type and
tags, `addTag` adding to the builder it is called on and returning it. -/
structure errorBuilder where
  errorType : InjectErrorType
  tags : List (String × TagValue)

/-- Modelled from the spec: a builder for the given error type, without tags. -/
def newErrorBuilder (errorType : InjectErrorType) : errorBuilder := ⟨errorType, []⟩

/-- Modelled from the spec: add one tag. -/
def errorBuilder.addTag (eb : errorBuilder) (key : String) (value : TagValue) : errorBuilder :=
  { eb with tags := eb.tags ++ [(key, value)] }

/-- Modelled from the spec: the finished error. -/
def errorBuilder.build (eb : errorBuilder) : GoError := .injectError eb.errorType eb.tags

/-- Modelled from the spec: `constantKindForReflectType` is declared outside
the source at hand; the spec's constant shape is "one of a fixed whitelist of
primitive kinds (numeric, string, boolean)". The result is the kind and the
`ok` flag. -/
def constantKindForReflectType (reflectType : RType) : Kind × Bool :=
  match reflectType.Kind with
  | .bool => (.bool, true)
  | .int => (.int, true)
  | .int8 => (.int8, true)
  | .int16 => (.int16, true)
  | .int32 => (.int32, true)
  | .int64 => (.int64, true)
  | .uint => (.uint, true)
  | .uint8 => (.uint8, true)
  | .uint16 => (.uint16, true)
  | .uint32 => (.uint32, true)
  | .uint64 => (.uint64, true)
  | .float32 => (.float32, true)
  | .float64 => (.float64, true)
  | .complex64 => (.complex64, true)
  | .complex128 => (.complex128, true)
  | .string => (.string, true)
  | _ => (.invalid, false)

/-! ## common.go -/

/-- The constant `taggedFuncStructFieldTag`. -/
def taggedFuncStructFieldTag : String := "injectTag"

/-- The function `isInterface`. -/
def isInterface (reflectType : RType) : Bool := reflectType.Kind = .interface

/-- The function `isStruct`. -/
def isStruct (reflectType : RType) : Bool := reflectType.Kind = .struct

/-- The function `isPtr`. -/
def isPtr (reflectType : RType) : Bool := reflectType.Kind = .ptr

/-- The function `isFunc`. -/
def isFunc (reflectType : RType) : Bool := reflectType.Kind = .func

/-- The function `isSupportedBindReflectType`. -/
def isSupportedBindReflectType (reflectType : RType) : Bool :=
  match reflectType.shape with
  | .ptr elem =>
    match elem.Kind with
    | .interface => true
    | .struct => true
    | _ => false
  | .struct _ => true
  | _ => false

/-- The function `isSupportedBindInterfaceReflectType`. -/
def isSupportedBindInterfaceReflectType (reflectType : RType) : Bool :=
  match reflectType.shape with
  | .ptr elem =>
    match elem.Kind with
    | .interface => true
    | _ => false
  | _ => false

/-- The function `isSupportedBindConstantReflectType`, over the missing
`constantKindForReflectType`, passed as `ck`. -/
def isSupportedBindConstantReflectType (ck : RType → Kind × Bool) (reflectType : RType) : Bool :=
  (ck reflectType).2

/-- The function `isSupportedBindingKeyReflectType`. -/
def isSupportedBindingKeyReflectType (ck : RType → Kind × Bool) (reflectType : RType) : Bool :=
  isSupportedBindReflectType reflectType || isSupportedBindInterfaceReflectType reflectType
    || isSupportedBindConstantReflectType ck reflectType

/-- The function `isSupportedNoTagParameterReflectType`. -/
def isSupportedNoTagParameterReflectType (reflectType : RType) : Bool :=
  isSupportedBindReflectType reflectType || isSupportedBindInterfaceReflectType reflectType

/-- The function `verifyParameterCanBeInjected`; `none` is the `nil` error. The
source calls `eb.addTag` for its effect on the builder. -/
def verifyParameterCanBeInjected (ck : RType → Kind × Bool) (parameterReflectType : RType)
    (tag : String) : Option GoError :=
  if tag = "" ∧ !isSupportedNoTagParameterReflectType parameterReflectType then
    let eb := newErrorBuilder injectErrorTypeNotSupportedYet
    let eb := eb.addTag "parameterReflectType" (.ofType parameterReflectType)
    some eb.build
  else if tag ≠ "" ∧ !isSupportedBindingKeyReflectType ck parameterReflectType then
    let eb := newErrorBuilder injectErrorTypeNotSupportedYet
    let eb := eb.addTag "parameterReflectType" (.ofType parameterReflectType)
    some eb.build
  else none

/-- The function `getStructFieldReflectTypeAndTag`. -/
def getStructFieldReflectTypeAndTag (structField : StructField) : RType × String :=
  let structFieldReflectType := structField.Type
  let structFieldReflectType :=
    if structFieldReflectType.Kind = .interface then PtrTo structFieldReflectType
    else structFieldReflectType
  (structFieldReflectType, structField.Tag.Get taggedFuncStructFieldTag)

/-- The loop of `verifyStructCanBePopulated` over `Field(0), Field(1), ...`:
the first error ends it. -/
def verifyStructCanBePopulated.loop (ck : RType → Kind × Bool) : List StructField → Option GoError
  | [] => none
  | structField :: rest =>
    let (structFieldReflectType, tag) := getStructFieldReflectTypeAndTag structField
    match verifyParameterCanBeInjected ck structFieldReflectType tag with
    | some err => some err
    | none => verifyStructCanBePopulated.loop ck rest

/-- The function `verifyStructCanBePopulated`; the outer `none` is the panic of
`NumField` on a type that is not a struct. -/
def verifyStructCanBePopulated (ck : RType → Kind × Bool) (structReflectType : RType) :
    Option (Option GoError) := do
  let fields ← structReflectType.Fields
  pure (verifyStructCanBePopulated.loop ck fields)

/-- The loop of `verifyIsFunc` over `In(0), In(1), ...`. -/
def verifyIsFunc.loop (ck : RType → Kind × Bool) : List RType → Option GoError
  | [] => none
  | parameterReflectType :: rest =>
    let parameterReflectType :=
      if isInterface parameterReflectType then PtrTo parameterReflectType
      else parameterReflectType
    match verifyParameterCanBeInjected ck parameterReflectType "" with
    | some err => some err
    | none => verifyIsFunc.loop ck rest

/-- The function `verifyIsFunc`. -/
def verifyIsFunc (ck : RType → Kind × Bool) (funcReflectType : RType) : Option (Option GoError) :=
  if !isFunc funcReflectType then
    let eb := newErrorBuilder injectErrorTypeNotFunction
    let eb := eb.addTag "funcReflectType" (.ofType funcReflectType)
    pure (some eb.build)
  else do
    let ins ← funcReflectType.Ins
    pure (verifyIsFunc.loop ck ins)

/-- The function `verifyIsTaggedFunc`. -/
def verifyIsTaggedFunc (ck : RType → Kind × Bool) (funcReflectType : RType) :
    Option (Option GoError) :=
  if !isFunc funcReflectType then
    let eb := newErrorBuilder injectErrorTypeNotFunction
    let eb := eb.addTag "funcReflectType" (.ofType funcReflectType)
    pure (some eb.build)
  else do
    let numIn ← funcReflectType.NumIn
    if numIn ≠ 1 then
      let eb := newErrorBuilder injectErrorTypeTaggedParametersInvalid
      let eb := eb.addTag "funcReflectType" (.ofType funcReflectType)
      pure (some eb.build)
    else do
      let inReflectType ← funcReflectType.In 0
      if !isStruct inReflectType then
        let eb := newErrorBuilder injectErrorTypeTaggedParametersInvalid
        let eb := eb.addTag "funcReflectType" (.ofType funcReflectType)
        pure (some eb.build)
      else if inReflectType.Name ≠ "" then
        let eb := newErrorBuilder injectErrorTypeTaggedParametersInvalid
        let eb := eb.addTag "funcReflectType" (.ofType funcReflectType)
        pure (some eb.build)
      else do
        let err ← verifyStructCanBePopulated ck inReflectType
        match err with
        | some err => pure (some err)
        | none => pure none

/-- The function `getParameterBindingKeysForFunc`. -/
def getParameterBindingKeysForFunc (funcReflectType : RType) : Option (List BindingKey) := do
  let ins ← funcReflectType.Ins
  pure (ins.map (fun inReflectType =>
    let inReflectType :=
      if inReflectType.Kind = .interface then PtrTo inReflectType else inReflectType
    newBindingKey inReflectType))

/-- The function `getStructFieldBindingKeys`. -/
def getStructFieldBindingKeys (structReflectType : RType) : Option (List BindingKey) := do
  let fields ← structReflectType.Fields
  pure (fields.map (fun structField =>
    let (structFieldReflectType, tag) := getStructFieldReflectTypeAndTag structField
    if tag ≠ "" then newTaggedBindingKey structFieldReflectType tag
    else newBindingKey structFieldReflectType))

/-- The function `getParameterBindingKeysForTaggedFunc`. -/
def getParameterBindingKeysForTaggedFunc (funcReflectType : RType) : Option (List BindingKey) := do
  let inReflectType ← funcReflectType.In 0
  getStructFieldBindingKeys inReflectType

/-! ## binding.go -/

/-- The type `*injector`, declared outside the source at hand and taken through
its method `get`: a lookup runs in a world state and returns a Go result
`(interface{}, error)` with the next world state. -/
structure injector (W V : Type) where
  get : RType → W → (Option V × Option GoError) × W

/-- A `reflect.Value` handed to `Call`: the value of a resolved parameter or
the injector itself. -/
inductive Arg (W V : Type) where
  | ofValue (v : Option V)
  | ofInjector (inj : injector W V)

/-- A Go function value used as a constructor: its type is a function type,
not variadic, with parameters `ins` and results `outs`; `call` is the body run
on arguments that `reflect` has accepted, giving the first result and the
second one, which the source takes to be an error. -/
structure Func (W V : Type) where
  name : String
  ins : List RType
  outs : List RType
  call : List (Arg W V) → W → (Option V × Option GoError) × W

/-- The function `reflect.TypeOf` on a function value. -/
def Func.TypeOf {W V : Type} (f : Func W V) : RType := .mk f.name [] (.func f.ins f.outs)

/-- What `reflect` reports of the values at run time: the dynamic type of a
value that is not nil, and the type of the pointer passed as injector (the
type `*injector`, declared outside the source at hand). -/
structure Reflect (V : Type) where
  TypeOf : V → RType
  injectorType : RType

/-- The type of a `reflect.Value` handed to `Call`; `reflect.ValueOf(nil)` is
the zero Value, which has none. -/
def Arg.Type {W V : Type} (rt : Reflect V) : Arg W V → Option RType
  | .ofValue none => none
  | .ofValue (some v) => some (rt.TypeOf v)
  | .ofInjector _ => some rt.injectorType

/-- The check `reflect.Value.Call` makes before it runs the function: as many
arguments as parameters, none the zero Value, each of a type assignable to the
type of its parameter. When it fails `Call` panics. -/
def callAccepts {W V : Type} (rt : Reflect V) : List RType → List (Arg W V) → Bool
  | [], [] => true
  | inReflectType :: ins, parameterValue :: parameterValues =>
    (match parameterValue.Type rt with
      | some reflectType => reflectType.AssignableTo inReflectType
      | none => false)
      && callAccepts rt ins parameterValues
  | _, _ => false

/-- What `get` does to its collaborators, in order: a lookup of a type in the
injector, or the invocation of the constructor function. -/
inductive Event (W V : Type) where
  | lookup (reflectType : RType)
  | invoke (parameterValues : List (Arg W V))

/-- A finished call: what it returned, the world state it left, and the events
it performed. -/
structure Run (W V α : Type) where
  ret : α
  world : W
  trace : List (Event W V)

/-- The type `intermediateBinding`. -/
structure intermediateBinding where
  bk : BindingKey

/-- The type `singletonBinding`. -/
structure singletonBinding (V : Type) where
  singleton : Option V

/-- The type `constructorBinding`. -/
structure constructorBinding (W V : Type) where
  constructor : Func W V

/-- The type `valueErr`. -/
structure valueErr (V : Type) where
  value : Option V
  err : Option GoError

/-- The type `singletonConstructorBinding`: `value` is the `atomic.Value`
(`none` until the first `Store`), `once` is the done flag of the `sync.Once`. -/
structure singletonConstructorBinding (W V : Type) where
  constructorBinding : constructorBinding W V
  value : Option (valueErr V)
  once : Bool

/-- The interface `binding`, as the sum of its four implementations. -/
inductive binding (W V : Type) where
  | ofIntermediate (b : intermediateBinding)
  | ofSingleton (b : singletonBinding V)
  | ofConstructor (b : constructorBinding W V)
  | ofSingletonConstructor (b : singletonConstructorBinding W V)

variable {W V : Type}

/-- The function `newIntermediateBinding`. -/
def newIntermediateBinding (bindingKey : BindingKey) : binding W V :=
  .ofIntermediate ⟨bindingKey⟩

/-- The method `intermediateBinding.get`. -/
def intermediateBinding.get (this : intermediateBinding) (_injector : injector W V) :
    Option V × Option GoError :=
  let eb := newErrorBuilder InjectErrorTypeIntermediateBinding
  let eb := eb.addTag "bindingKey" (.ofBindingKey this.bk)
  (none, some eb.build)

/-- The method `intermediateBinding.bindingKey`. -/
def intermediateBinding.bindingKey (this : intermediateBinding) :
    Option BindingKey × Option GoError :=
  (some this.bk, none)

/-- The function `newSingletonBinding`. -/
def newSingletonBinding (singleton : Option V) : binding W V :=
  .ofSingleton ⟨singleton⟩

/-- The method `singletonBinding.get`; the pointer `injector` may be nil,
written `none`. -/
def singletonBinding.get (this : singletonBinding V) (_injector : Option (injector W V)) :
    Option V × Option GoError :=
  (this.singleton, none)

/-- The method `singletonBinding.bindingKey`. -/
def singletonBinding.bindingKey (_this : singletonBinding V) :
    Option BindingKey × Option GoError :=
  (none, some (newErrorBuilder InjectErrorTypeFinalBinding).build)

/-- The function `newConstructorBinding`. -/
def newConstructorBinding (constructor : Func W V) : binding W V :=
  .ofConstructor ⟨constructor⟩

/-- The rule applied to a parameter type before it is requested: an interface
type is replaced by the pointer to it. -/
def normalized (inReflectType : RType) : RType :=
  if inReflectType.Kind = .interface then PtrTo inReflectType else inReflectType

/-- The condition of `constructorBinding.get`:
`numIn == 1 && In(0).AssignableTo(TypeOf((*Injector)(nil)).Elem())`, the
interface type `Injector` (declared outside the source at hand) being passed
as an argument. -/
def takesInjector (Injector : RType) (ins : List RType) : Bool :=
  ins.length == 1 &&
    match ins[0]? with
    | some in0 => in0.AssignableTo Injector
    | none => false

/-- The loop of `constructorBinding.get` over `In(0), In(1), ...`: each type is
requested from the injector, and the first error ends the loop. The result is
the error or the parameter values, the world state, and the lookups made. -/
def constructorBinding.get.loop (injector : injector W V) :
    List RType → W → Except GoError (List (Arg W V)) × W × List (Event W V)
  | [], w => (.ok [], w, [])
  | inReflectType :: rest, w =>
    let inReflectType :=
      if inReflectType.Kind = .interface then PtrTo inReflectType else inReflectType
    let ((parameter, err), w1) := injector.get inReflectType w
    match err with
    | some err => (.error err, w1, [.lookup inReflectType])
    | none =>
      let (r, w2, tr) := constructorBinding.get.loop injector rest w1
      (r.map (fun parameterValues => .ofValue parameter :: parameterValues), w2,
        .lookup inReflectType :: tr)

/-- The method `constructorBinding.get`; `ret = none` is a panic. `Call`
panics, before the constructor runs, on arguments it does not accept (a
parameter resolved to nil, a value or the injector of a type not assignable to
the parameter); reading `returnValues[0]` and `returnValues[1]` panics, after
the constructor has run, when the function has fewer than two results. -/
def constructorBinding.get (Injector : RType) (rt : Reflect V) (this : constructorBinding W V)
    (injector : injector W V) (w : W) : Run W V (Option (Option V × Option GoError)) :=
  let ins := this.constructor.ins
  let resolved :=
    if takesInjector Injector ins then (.ok [Arg.ofInjector injector], w, [])
    else constructorBinding.get.loop injector ins w
  match resolved with
  | (.error err, w1, tr) => ⟨some (none, some err), w1, tr⟩
  | (.ok parameterValues, w1, tr) =>
    if callAccepts rt ins parameterValues then
      let ((return1, return2), w2) := this.constructor.call parameterValues w1
      if this.constructor.outs.length < 2 then ⟨none, w2, tr ++ [.invoke parameterValues]⟩
      else
        match return2 with
        | some return2 => ⟨some (none, some return2), w2, tr ++ [.invoke parameterValues]⟩
        | none => ⟨some (return1, none), w2, tr ++ [.invoke parameterValues]⟩
    else ⟨none, w1, tr⟩

/-- The method `constructorBinding.bindingKey`. -/
def constructorBinding.bindingKey (_this : constructorBinding W V) :
    Option BindingKey × Option GoError :=
  (none, some (newErrorBuilder InjectErrorTypeFinalBinding).build)

/-- The function `newSingletonConstructorBinding`. -/
def newSingletonConstructorBinding (constructor : Func W V) : binding W V :=
  .ofSingletonConstructor ⟨⟨constructor⟩, none, false⟩

/-- The method `singletonConstructorBinding.get`, one caller at a time;
`ret = none` is a panic. `once.Do` runs its function unless the flag is set,
and sets the flag also when the function panics; the panic then leaves `get`
with nothing stored. Otherwise the stored pair is loaded, and the type
assertion on an empty `atomic.Value` panics. The binding after the call is
returned with the run. -/
def singletonConstructorBinding.get (Injector : RType) (rt : Reflect V)
    (this : singletonConstructorBinding W V) (injector : injector W V) (w : W) :
    singletonConstructorBinding W V × Run W V (Option (Option V × Option GoError)) :=
  let load (this : singletonConstructorBinding W V) (w : W) (tr : List (Event W V)) :
      singletonConstructorBinding W V × Run W V (Option (Option V × Option GoError)) :=
    match this.value with
    | some valueErr => (this, ⟨some (valueErr.value, valueErr.err), w, tr⟩)
    | none => (this, ⟨none, w, tr⟩)
  if this.once then load this w []
  else
    let r := this.constructorBinding.get Injector rt injector w
    match r.ret with
    | none => ({ this with once := true }, ⟨none, r.world, r.trace⟩)
    | some (value, err) =>
      load { this with value := some ⟨value, err⟩, once := true } r.world r.trace

/-- The method `bindingKey` of `singletonConstructorBinding`, promoted from the
embedded `constructorBinding`. -/
def singletonConstructorBinding.bindingKey (this : singletonConstructorBinding W V) :
    Option BindingKey × Option GoError :=
  this.constructorBinding.bindingKey

/-- The method `get` of the interface `binding`: the binding after the call
and the run. -/
def binding.get (Injector : RType) (rt : Reflect V) (b : binding W V) (injector : injector W V)
    (w : W) : binding W V × Run W V (Option (Option V × Option GoError)) :=
  match b with
  | .ofIntermediate this => (b, ⟨some (this.get injector), w, []⟩)
  | .ofSingleton this => (b, ⟨some (this.get (some injector)), w, []⟩)
  | .ofConstructor this => (b, this.get Injector rt injector w)
  | .ofSingletonConstructor this =>
    let (this, r) := this.get Injector rt injector w
    (.ofSingletonConstructor this, r)

/-- The method `bindingKey` of the interface `binding`. -/
def binding.bindingKey (b : binding W V) : Option BindingKey × Option GoError :=
  match b with
  | .ofIntermediate this => this.bindingKey
  | .ofSingleton this => this.bindingKey
  | .ofConstructor this => this.bindingKey
  | .ofSingletonConstructor this => this.bindingKey

/-- Successive calls of `get` on one binding, one per injector of the list,
each starting in the world state the previous one left (a call that panics is
followed by the next one all the same): the outcomes in order, `none` for a
panic, the binding and world state at the end, and all events in order. -/
def binding.gets (Injector : RType) (rt : Reflect V) (b : binding W V) :
    List (injector W V) → W →
      List (Option (Option V × Option GoError)) × binding W V × W × List (Event W V)
  | [], w => ([], b, w, [])
  | injector :: rest, w =>
    let (b1, r) := b.get Injector rt injector w
    let (rets, b2, w2, tr) := binding.gets Injector rt b1 rest r.world
    (r.ret :: rets, b2, w2, r.trace ++ tr)

/-- The injector answers the types of the list in order, without an error:
from world state `w` it returns the values `vs` and leaves world state `w1`. -/
inductive Resolves (injector : injector W V) : List RType → W → List (Option V) → W → Prop where
  | nil (w : W) : Resolves injector [] w [] w
  | cons (t : RType) (ts : List RType) (w w1 w2 : W) (v : Option V) (vs : List (Option V))
      (hget : injector.get (normalized t) w = ((v, none), w1))
      (hrest : Resolves injector ts w1 vs w2) :
      Resolves injector (t :: ts) w (v :: vs) w2

/-- The steps 2 and 3 of the spec's `Constructor.produce`: the arguments a
constructor with parameters `ins` is to receive. Either the parameters are the
injector special case and the one argument is the injector itself, or every
parameter is answered by the injector and the arguments are the answers in
declaration order. -/
inductive ResolvedArguments (Injector : RType) (injector : injector W V) (ins : List RType) :
    W → List (Arg W V) → W → Prop where
  | viaInjector (w : W) (h : takesInjector Injector ins = true) :
      ResolvedArguments Injector injector ins w [Arg.ofInjector injector] w
  | viaLookups (w w1 : W) (vs : List (Option V)) (h : takesInjector Injector ins = false)
      (hres : Resolves injector ins w vs w1) :
      ResolvedArguments Injector injector ins w (vs.map Arg.ofValue) w1

/-- The types requested from the injector in a trace, in order. -/
def lookups : List (Event W V) → List RType
  | [] => []
  | .lookup reflectType :: rest => reflectType :: lookups rest
  | .invoke _ :: rest => lookups rest

/-- The spec's concrete-value shape: "a plain aggregate (by value) or a pointer
to an aggregate", that is, a struct or a pointer to a struct. -/
def isConcreteValueShaped (t : RType) : Bool :=
  match t.shape with
  | .struct _ => true
  | .ptr elem => elem.Kind = .struct
  | _ => false

/-- The spec's contract shape: "a pointer-to-behavioral-abstraction", that is,
a pointer to an interface. -/
def isContractShaped (t : RType) : Bool :=
  match t.shape with
  | .ptr elem => elem.Kind = .interface
  | _ => false

/-- The spec's constant shape: a type of the whitelist, that is, one the
function passed as `ck` accepts. -/
def isConstantShaped (ck : RType → Kind × Bool) (t : RType) : Bool := (ck t).2

/-- The parameter shapes a bare parameter list may have: a struct, an
interface, a pointer to a struct or a pointer to an interface. -/
def isParameterShaped (t : RType) : Bool :=
  match t.shape with
  | .struct _ => true
  | .interface => true
  | .ptr elem => elem.Kind = .struct || elem.Kind = .interface
  | _ => false

/-! ## Concrete inputs -/

/-- An interface type `Injector` with two methods. -/
def exInjectorType : RType := .mk "Injector" ["Get", "Call"] .interface

/-- A named struct type `A`. -/
def exA : RType := .mk "A" [] (.struct [])

/-- A named struct type `B`. -/
def exB : RType := .mk "B" [] (.struct [])

/-- A named interface type `C` with one method. -/
def exC : RType := .mk "C" ["M"] .interface

/-- A named struct type `cImpl` that implements `C`. -/
def exCImpl : RType := .mk "cImpl" ["M"] (.struct [])

/-- The empty interface type `interface{}`. -/
def exAny : RType := .mk "" [] .interface

/-- The predeclared interface type `error`. -/
def exError : RType := .mk "error" ["Error"] .interface

/-- An injector over a counter: each lookup adds one to the counter; the type
named `B` is not bound, a struct named `A` is answered by 1 and anything else
by 2. -/
def exInjector : injector Nat Nat :=
  ⟨fun t w =>
    if t.Name = "B" then ((none, some (.other "B is not bound")), w + 1)
    else if t.Name = "A" then ((some 1, none), w + 1)
    else ((some 2, none), w + 1)⟩

/-- The sum of the values among the arguments. -/
def exSum : List (Arg Nat Nat) → Nat
  | [] => 0
  | .ofValue (some n) :: rest => n + exSum rest
  | _ :: rest => exSum rest

/-- A constructor `func(A, B, C) (interface{}, error)`: it adds 100 to the
counter and returns the sum of its arguments. -/
def exCtorABC : Func Nat Nat :=
  ⟨"", [exA, exB, exC], [exAny, exError], fun args w => ((some (exSum args), none), w + 100)⟩

/-- A constructor `func(A, C) (interface{}, error)` of the same behaviour. -/
def exCtorAC : Func Nat Nat :=
  ⟨"", [exA, exC], [exAny, exError], fun args w => ((some (exSum args), none), w + 100)⟩

/-- The struct type `injector` behind the pointer passed to `get`. -/
def exInjectorStruct : RType := .mk "injector" [] (.struct [])

/-- The pointer type `*injector`: it has the methods of `Injector`, so it
implements that interface without being it. -/
def exInjectorPtr : RType := .mk "" ["Get", "Call"] (.ptr exInjectorStruct)

/-- A constructor `func(*injector) (interface{}, error)`. -/
def exCtorInjectorPtr : Func Nat Nat :=
  ⟨"", [exInjectorPtr], [exAny, exError], fun args w => ((some (exSum args), none), w + 100)⟩

/-- A constructor `func(Injector) (interface{}, error)`. -/
def exCtorInjector : Func Nat Nat :=
  ⟨"", [exInjectorType], [exAny, exError],
    fun args w => ((some (exSum args), none), w + 100)⟩

/-- The pointer type `*fakeInjector`, of another struct: it has the methods of
`Injector` too, and is not the type of the injector. -/
def exFakeInjectorPtr : RType :=
  .mk "" ["Get", "Call"] (.ptr (.mk "fakeInjector" [] (.struct [])))

/-- A constructor `func(*fakeInjector) (interface{}, error)`. -/
def exCtorFakeInjector : Func Nat Nat :=
  ⟨"", [exFakeInjectorPtr], [exAny, exError],
    fun args w => ((some (exSum args), none), w + 100)⟩

/-- A constructor `func(A) (interface{}, error)`. -/
def exCtorA : Func Nat Nat :=
  ⟨"", [exA], [exAny, exError], fun args w => ((some (exSum args), none), w + 100)⟩

/-- The run-time types of the values of `exInjector`: the value 1 is an `A`,
any other value a `cImpl`; the injector pointer is a `*injector`. -/
def exReflect : Reflect Nat := ⟨fun n => if n = 1 then exA else exCImpl, exInjectorPtr⟩

/-- An injector that answers every type with `(nil, nil)`, as for a singleton
bound to nil, and counts the lookups. -/
def exNilInjector : injector Nat Nat := ⟨fun _ w => ((none, none), w + 1)⟩

/-- The predeclared type `int`. -/
def exInt : RType := .mk "int" [] (.basic .int)

/-- The function type `func(struct{ X int }) (interface{}, error)`: the field
has no tag. -/
def exFuncUntaggedInt : RType :=
  .mk "" [] (.func [.mk "" [] (.struct [.mk "X" exInt []])] [])

/-- The function type
`func(struct{ A A; C C; N int "injectTag:\"n\"" }) (interface{}, error)`. -/
def exFuncTagged : RType :=
  .mk "" [] (.func [.mk "" [] (.struct
    [.mk "A" exA [], .mk "C" exC [], .mk "N" exInt [("injectTag", "n")]])] [])

/-- The function type `func(A) (interface{}, error)`: the parameter is a named
struct. -/
def exFuncNamedStruct : RType := .mk "" [] (.func [exA] [])

/-- The struct type `struct{ A A; X int; Y []int }`, without tags. -/
def exStructTwoOffenders : RType :=
  .mk "" [] (.struct [.mk "A" exA [], .mk "X" exInt [], .mk "Y" (.mk "" [] (.slice exInt)) []])

/-- The predeclared type `string`. -/
def exString : RType := .mk "string" [] (.basic .string)

/-- The function type `func(A, C, *A, *C) (interface{}, error)`. -/
def exFuncGood : RType :=
  .mk "" [] (.func [exA, exC, .mk "" [] (.ptr exA), PtrTo exC] [])

/-- The function type `func(A, int, string) (interface{}, error)`. -/
def exFuncConstants : RType := .mk "" [] (.func [exA, exInt, exString] [])

/-! ## Lemmas on the resolution loop -/

/-- When every parameter resolves, the loop returns the values in declaration
order, after one lookup per parameter. -/
theorem loop_of_resolves (inj : injector W V) (ts : List RType) (w w1 : W)
    (vs : List (Option V)) (h : Resolves inj ts w vs w1) :
    constructorBinding.get.loop inj ts w
      = (.ok (vs.map Arg.ofValue), w1, ts.map (fun t => Event.lookup (normalized t))) := by
  induction h with
  | nil w => rfl
  | cons t ts w w1 w2 v vs hget _ ih =>
    simp only [normalized] at hget
    simp [constructorBinding.get.loop, hget, ih, normalized, Except.map]

/-- When the parameters before `p` resolve and `p` fails, the loop stops at
`p` with that error. -/
theorem loop_of_failure (inj : injector W V) (ts post : List RType) (p : RType) (w w1 w2 : W)
    (vs : List (Option V)) (v : Option V) (e : GoError)
    (h : Resolves inj ts w vs w1)
    (hfail : inj.get (normalized p) w1 = ((v, some e), w2)) :
    constructorBinding.get.loop inj (ts ++ p :: post) w
      = (.error e, w2, (ts ++ [p]).map (fun t => Event.lookup (normalized t))) := by
  induction h with
  | nil w =>
    simp only [normalized] at hfail
    simp [constructorBinding.get.loop, hfail, normalized]
  | cons t ts w w1 w2 v vs hget _ ih =>
    simp only [normalized] at hget
    simp [constructorBinding.get.loop, hget, ih hfail, normalized, Except.map]

/-! ## Properties of the bindings -/

/-- The two ways the loop ends: at the first parameter the injector does not
answer, after the lookups up to it; or after one lookup for each parameter,
with one value for each. -/
theorem loop_cases (inj : injector W V) (ts : List RType) (w : W) :
    (∃ e w1 n, n < ts.length ∧ constructorBinding.get.loop inj ts w
        = (.error e, w1, (ts.take (n + 1)).map (fun t => Event.lookup (normalized t))))
    ∨ (∃ (vs : List (Option V)) (w1 : W), vs.length = ts.length
        ∧ constructorBinding.get.loop inj ts w
          = (.ok (vs.map Arg.ofValue), w1, ts.map (fun t => Event.lookup (normalized t)))) := by
  induction ts generalizing w with
  | nil => exact Or.inr ⟨[], w, rfl, rfl⟩
  | cons t ts ih =>
    rcases hget : inj.get (normalized t) w with ⟨⟨v, err⟩, w1⟩
    simp only [normalized] at hget
    cases err with
    | some e =>
      refine Or.inl ⟨e, w1, 0, by simp, ?_⟩
      simp [constructorBinding.get.loop, hget, normalized]
    | none =>
      rcases ih w1 with ⟨e, w2, n, hn, hloop⟩ | ⟨vs, w2, hlen, hloop⟩
      · refine Or.inl ⟨e, w2, n + 1, by simpa using hn, ?_⟩
        simp [constructorBinding.get.loop, hget, hloop, normalized, Except.map]
      · refine Or.inr ⟨v :: vs, w2, by simp [hlen], ?_⟩
        simp [constructorBinding.get.loop, hget, hloop, normalized, Except.map]

/-- The run of `constructorBinding.get` once its arguments are there and
`Call` accepts them: the constructor runs, and its two results are read. -/
theorem get_of_accepted (Injector : RType) (rt : Reflect V) (this : constructorBinding W V)
    (inj : injector W V) (w w1 : W) (args : List (Arg W V)) (tr : List (Event W V))
    (hres : (if takesInjector Injector this.constructor.ins = true
        then (Except.ok [Arg.ofInjector inj], w, [])
        else constructorBinding.get.loop inj this.constructor.ins w) = (.ok args, w1, tr))
    (haccept : callAccepts rt this.constructor.ins args = true) :
    (this.get Injector rt inj w).trace = tr ++ [Event.invoke args]
    ∧ (this.get Injector rt inj w).world = (this.constructor.call args w1).2
    ∧ (2 ≤ this.constructor.outs.length →
        (this.get Injector rt inj w).ret
          = some (match (this.constructor.call args w1).1.2 with
            | some e => (none, some e)
            | none => ((this.constructor.call args w1).1.1, none)))
    ∧ (this.constructor.outs.length < 2 → (this.get Injector rt inj w).ret = none) := by
  rcases hcall : this.constructor.call args w1 with ⟨⟨r1, r2⟩, w2⟩
  by_cases houts : this.constructor.outs.length < 2
  · have h2 : ¬ 2 ≤ this.constructor.outs.length := by omega
    simp [constructorBinding.get, hres, haccept, hcall, houts, h2]
  · have h2 : 2 ≤ this.constructor.outs.length := by omega
    cases r2 <;> simp [constructorBinding.get, hres, haccept, hcall, houts, h2]

/-- The run of `constructorBinding.get` once its arguments are there and
`Call` does not accept them: a panic, before the constructor runs. -/
theorem get_of_rejected (Injector : RType) (rt : Reflect V) (this : constructorBinding W V)
    (inj : injector W V) (w w1 : W) (args : List (Arg W V)) (tr : List (Event W V))
    (hres : (if takesInjector Injector this.constructor.ins = true
        then (Except.ok [Arg.ofInjector inj], w, [])
        else constructorBinding.get.loop inj this.constructor.ins w) = (.ok args, w1, tr))
    (hreject : callAccepts rt this.constructor.ins args = false) :
    this.get Injector rt inj w = ⟨none, w1, tr⟩ := by
  simp [constructorBinding.get, hres, hreject]

/-- Outside the special case `constructorBinding.get` ends in one of three
ways: at the first lookup that fails; after all the lookups and the invocation
of the constructor on the values returned, which `Call` accepts; or in a
panic after all the lookups, `Call` not accepting the values. -/
theorem get_cases (Injector : RType) (rt : Reflect V) (this : constructorBinding W V)
    (inj : injector W V) (w : W) (h : takesInjector Injector this.constructor.ins = false) :
    (∃ n, n < this.constructor.ins.length ∧ (this.get Injector rt inj w).trace
        = (this.constructor.ins.take (n + 1)).map (fun t => Event.lookup (normalized t)))
    ∨ (∃ vs : List (Option V), vs.length = this.constructor.ins.length
        ∧ callAccepts rt this.constructor.ins (vs.map Arg.ofValue : List (Arg W V)) = true
        ∧ (this.get Injector rt inj w).trace
          = this.constructor.ins.map (fun t => Event.lookup (normalized t))
            ++ [Event.invoke (vs.map Arg.ofValue)])
    ∨ (∃ vs : List (Option V), vs.length = this.constructor.ins.length
        ∧ callAccepts rt this.constructor.ins (vs.map Arg.ofValue : List (Arg W V)) = false
        ∧ (this.get Injector rt inj w).ret = none
        ∧ (this.get Injector rt inj w).trace
          = this.constructor.ins.map (fun t => Event.lookup (normalized t))) := by
  rcases loop_cases inj this.constructor.ins w with ⟨e, w1, n, hn, hloop⟩ | ⟨vs, w1, hlen, hloop⟩
  · exact Or.inl ⟨n, hn, by simp [constructorBinding.get, h, hloop]⟩
  · have hres : (if takesInjector Injector this.constructor.ins = true
        then (Except.ok [Arg.ofInjector inj], w, [])
        else constructorBinding.get.loop inj this.constructor.ins w)
        = (.ok (vs.map Arg.ofValue), w1,
            this.constructor.ins.map (fun t => Event.lookup (normalized t))) := by
      simp [h, hloop]
    cases haccept : callAccepts rt this.constructor.ins (vs.map Arg.ofValue) with
    | true =>
      exact Or.inr (Or.inl ⟨vs, hlen, haccept,
        (get_of_accepted Injector rt this inj w w1 _ _ hres haccept).1⟩)
    | false =>
      have hrun := get_of_rejected Injector rt this inj w w1 _ _ hres haccept
      exact Or.inr (Or.inr ⟨vs, hlen, haccept, by rw [hrun], by rw [hrun]⟩)

/-- In the special case `constructorBinding.get` makes no lookup: it invokes
the constructor on the injector when `Call` accepts it, and panics before the
invocation when not. -/
theorem get_special (Injector : RType) (rt : Reflect V) (this : constructorBinding W V)
    (inj : injector W V) (w : W) (h : takesInjector Injector this.constructor.ins = true) :
    (callAccepts rt this.constructor.ins [Arg.ofInjector inj] = true →
      (this.get Injector rt inj w).trace = [Event.invoke [Arg.ofInjector inj]])
    ∧ (callAccepts rt this.constructor.ins [Arg.ofInjector inj] = false →
      (this.get Injector rt inj w).ret = none ∧ (this.get Injector rt inj w).trace = []) := by
  have hres : (if takesInjector Injector this.constructor.ins = true
      then (Except.ok [Arg.ofInjector inj], w, [])
      else constructorBinding.get.loop inj this.constructor.ins w)
      = (.ok [Arg.ofInjector inj], w, []) := by
    simp [h]
  constructor
  · intro haccept
    simpa using (get_of_accepted Injector rt this inj w w _ _ hres haccept).1
  · intro hreject
    rw [get_of_rejected Injector rt this inj w w _ _ hres hreject]
    exact ⟨rfl, rfl⟩

/-- C1: fail-fast ordering of `constructorBinding.get`. For a constructor that
is not the injector special case, if the injector answers the parameters
before `p` and fails on `p` with error `e`, then `get` returns `(nil, e)`, its
events are exactly the lookups of the parameters up to and including `p` (the
parameters after `p` are not requested), no event is an invocation of the
constructor function, and the world state is the one the failing lookup left. -/
theorem constructorBinding_get_fail_fast (Injector : RType) (rt : Reflect V)
    (this : constructorBinding W V)
    (inj : injector W V) (ts post : List RType) (p : RType) (w w1 w2 : W)
    (vs : List (Option V)) (v : Option V) (e : GoError)
    (hins : this.constructor.ins = ts ++ p :: post)
    (hnot : takesInjector Injector this.constructor.ins = false)
    (hpre : Resolves inj ts w vs w1)
    (hfail : inj.get (normalized p) w1 = ((v, some e), w2)) :
    (this.get Injector rt inj w).ret = some (none, some e)
    ∧ (this.get Injector rt inj w).trace
        = (ts ++ [p]).map (fun t => Event.lookup (normalized t))
    ∧ (∀ args, Event.invoke args ∉ (this.get Injector rt inj w).trace)
    ∧ (this.get Injector rt inj w).world = w2 := by
  have hloop := loop_of_failure inj ts post p w w1 w2 vs v e hpre hfail
  have hrun : this.get Injector rt inj w
      = ⟨some (none, some e), w2, (ts ++ [p]).map (fun t => Event.lookup (normalized t))⟩ := by
    rw [← hins] at hloop
    simp [constructorBinding.get, hnot, hloop]
  rw [hrun]
  refine ⟨rfl, rfl, ?_, rfl⟩
  intro args hmem
  simp at hmem

/-- An instance of C1: with parameters `[A, B, C]` and `B` not bound, `get`
returns the error of `B` after the lookups of `A` and `B` alone. -/
theorem constructorBinding_get_fail_fast_witness :
    (constructorBinding.get exInjectorType exReflect ⟨exCtorABC⟩ exInjector 0).ret
        = some (none, some (.other "B is not bound"))
    ∧ (constructorBinding.get exInjectorType exReflect ⟨exCtorABC⟩ exInjector 0).trace
        = ([exA] ++ [exB]).map (fun t => Event.lookup (normalized t))
    ∧ (∀ args, Event.invoke args ∉
        (constructorBinding.get exInjectorType exReflect ⟨exCtorABC⟩ exInjector 0).trace)
    ∧ (constructorBinding.get exInjectorType exReflect ⟨exCtorABC⟩ exInjector 0).world = 2 :=
  constructorBinding_get_fail_fast exInjectorType exReflect ⟨exCtorABC⟩ exInjector [exA] [exC]
    exB 0 1 2 [some 1] none (.other "B is not bound") rfl rfl
    (Resolves.cons exA [] 0 1 1 (some 1) [] rfl (Resolves.nil 1)) rfl

/-- C6, as the code has it: result mapping of `constructorBinding.get`. Let the
arguments of the constructor be resolved (each parameter answered by the
injector, in declaration order; in the special case the one argument is the
injector) and let the constructor function return `(return1, return2)` on
them. If `Call` accepts the arguments (none is nil, each is of a type
assignable to its parameter) and the function has two results, `get` returns
`(nil, return2)` when `return2` is not nil and `(return1, nil)` otherwise; its
events are the lookups, one per parameter in declaration order, followed by
one invocation on exactly those arguments, and with no parameters the
invocation is the only event. If `Call` does not accept the arguments, `get`
panics after the lookups and the constructor function is not invoked. -/
theorem constructorBinding_get_result (Injector : RType) (rt : Reflect V)
    (this : constructorBinding W V)
    (inj : injector W V) (w w1 w2 : W) (args : List (Arg W V))
    (return1 : Option V) (return2 : Option GoError)
    (hargs : ResolvedArguments Injector inj this.constructor.ins w args w1)
    (hcall : this.constructor.call args w1 = ((return1, return2), w2)) :
    (callAccepts rt this.constructor.ins args = true → 2 ≤ this.constructor.outs.length →
      (∀ e, return2 = some e → (this.get Injector rt inj w).ret = some (none, some e))
      ∧ (return2 = none → (this.get Injector rt inj w).ret = some (return1, none))
      ∧ (this.get Injector rt inj w).trace
          = (if takesInjector Injector this.constructor.ins then []
              else this.constructor.ins.map (fun t => Event.lookup (normalized t)))
            ++ [Event.invoke args]
      ∧ (this.get Injector rt inj w).world = w2
      ∧ (this.constructor.ins = [] → (this.get Injector rt inj w).trace = [Event.invoke []]))
    ∧ (callAccepts rt this.constructor.ins args = false →
      (this.get Injector rt inj w).ret = none
      ∧ (this.get Injector rt inj w).trace
          = (if takesInjector Injector this.constructor.ins then []
              else this.constructor.ins.map (fun t => Event.lookup (normalized t)))
      ∧ (∀ parameterValues, Event.invoke parameterValues ∉ (this.get Injector rt inj w).trace)
      ∧ (this.get Injector rt inj w).world = w1) := by
  have hres : (if takesInjector Injector this.constructor.ins = true
      then (Except.ok [Arg.ofInjector inj], w, [])
      else constructorBinding.get.loop inj this.constructor.ins w)
      = (.ok args, w1, if takesInjector Injector this.constructor.ins then []
          else this.constructor.ins.map (fun t => Event.lookup (normalized t))) := by
    cases hargs
    case viaInjector h => simp [h]
    case viaLookups vs h hres =>
      simp [h, loop_of_resolves inj this.constructor.ins w w1 vs hres]
  constructor
  · intro haccept houts
    obtain ⟨htrace, hworld, hret, _⟩ :=
      get_of_accepted Injector rt this inj w w1 args _ hres haccept
    have hr := hret houts
    rw [hcall] at hr
    refine ⟨?_, ?_, htrace, ?_, ?_⟩
    · intro e he
      rw [hr, he]
    · intro he
      rw [hr, he]
    · rw [hworld, hcall]
    · intro hnil
      rw [htrace]
      rw [hnil] at hargs
      cases hargs
      case viaInjector h => simp [takesInjector] at h
      case viaLookups vs h hres2 =>
        cases hres2
        simp [hnil, takesInjector]
  · intro hreject
    rw [get_of_rejected Injector rt this inj w w1 args _ hres hreject]
    refine ⟨rfl, rfl, ?_, rfl⟩
    intro parameterValues hmem
    by_cases h : takesInjector Injector this.constructor.ins = true
    · simp [h] at hmem
    · simp [h] at hmem

/-- An instance of C6 as the code has it: with parameters `[A, C]`, both
answered by values of assignable types, the constructor is invoked once on the
two answers, after the lookups of `A` and of the pointer to `C`. -/
theorem constructorBinding_get_result_witness :
    (constructorBinding.get exInjectorType exReflect ⟨exCtorAC⟩ exInjector 0).ret
        = some (some 3, none)
    ∧ (constructorBinding.get exInjectorType exReflect ⟨exCtorAC⟩ exInjector 0).trace
        = [Event.lookup exA, Event.lookup (PtrTo exC),
            Event.invoke [Arg.ofValue (some 1), Arg.ofValue (some 2)]]
    ∧ (constructorBinding.get exInjectorType exReflect ⟨exCtorAC⟩ exInjector 0).world = 102 :=
  have h := (constructorBinding_get_result exInjectorType exReflect ⟨exCtorAC⟩ exInjector 0 2 102
    [Arg.ofValue (some 1), Arg.ofValue (some 2)] (some 3) none
    (ResolvedArguments.viaLookups 0 2 [some 1, some 2] rfl
      (Resolves.cons exA [exC] 0 1 2 (some 1) [some 2] rfl
        (Resolves.cons exC [] 1 2 2 (some 2) [] rfl (Resolves.nil 2))))
    rfl).1 (by decide) (by decide)
  ⟨h.2.1 rfl, h.2.2.1, h.2.2.2.1⟩

/-- C6 as stated fails: the one parameter of `func(A)` resolves successfully,
to `(nil, nil)`, and the constructor is not invoked: `Call` panics on the zero
Value, after the lookup of `A`. -/
theorem constructorBinding_get_result_counterexample :
    Resolves exNilInjector exCtorA.ins 0 [none] 1
    ∧ takesInjector exInjectorType exCtorA.ins = false
    ∧ (constructorBinding.get exInjectorType exReflect ⟨exCtorA⟩ exNilInjector 0).ret = none
    ∧ (constructorBinding.get exInjectorType exReflect ⟨exCtorA⟩ exNilInjector 0).trace
        = [Event.lookup exA] :=
  ⟨Resolves.cons exA [] 0 1 1 none [] rfl (Resolves.nil 1), rfl, rfl, rfl⟩

/-- A call of `singletonConstructorBinding.get` after the once has fired runs
nothing: it returns the stored pair, and panics when nothing is stored. -/
theorem singletonConstructorBinding_get_done (Injector : RType) (rt : Reflect V)
    (this : singletonConstructorBinding W V) (inj : injector W V) (w : W)
    (honce : this.once = true) :
    this.get Injector rt inj w
      = (this, ⟨this.value.map (fun ve => (ve.value, ve.err)), w, []⟩) := by
  cases hvalue : this.value <;> simp [singletonConstructorBinding.get, honce, hvalue]

/-- Any number of calls after the once has fired have the same outcome, with
no event and no change of the world state. -/
theorem binding_gets_done (Injector : RType) (rt : Reflect V)
    (this : singletonConstructorBinding W V) (honce : this.once = true)
    (injs : List (injector W V)) (w : W) :
    binding.gets Injector rt (.ofSingletonConstructor this) injs w
      = (List.replicate injs.length (this.value.map (fun ve => (ve.value, ve.err))),
          .ofSingletonConstructor this, w, []) := by
  induction injs with
  | nil => rfl
  | cons inj rest ih =>
    simp [binding.gets, binding.get,
      singletonConstructorBinding_get_done Injector rt this inj w honce, ih,
      List.replicate_succ]

/-- C2, as the code has it: construct-once and cached replay of
`singletonConstructorBinding.get` (one caller at a time). For `n >= 1`
successive calls on a new binding, with injectors `inj :: rest`, the wrapped
`constructorBinding.get` runs once, with the first injector: the events and
the final world state of all the calls together are those of that one run.
Every call has the outcome of that run: when the run returns a pair, a value
or an error, every call returns that pair, and when the run panics, every
call panics and nothing is stored. -/
theorem singletonConstructorBinding_get_once (Injector : RType) (rt : Reflect V)
    (constructor : Func W V) (inj : injector W V) (rest : List (injector W V)) (w : W) :
    binding.gets Injector rt (newSingletonConstructorBinding constructor) (inj :: rest) w
      = (List.replicate (rest.length + 1)
            (constructorBinding.get Injector rt ⟨constructor⟩ inj w).ret,
          .ofSingletonConstructor
            ⟨⟨constructor⟩,
              (constructorBinding.get Injector rt ⟨constructor⟩ inj w).ret.map
                (fun pair => ⟨pair.1, pair.2⟩), true⟩,
          (constructorBinding.get Injector rt ⟨constructor⟩ inj w).world,
          (constructorBinding.get Injector rt ⟨constructor⟩ inj w).trace) := by
  cases hret : (constructorBinding.get Injector rt ⟨constructor⟩ inj w).ret with
  | none =>
    have hdone := binding_gets_done Injector rt
      (⟨⟨constructor⟩, none, true⟩ : singletonConstructorBinding W V) rfl rest
      (constructorBinding.get Injector rt ⟨constructor⟩ inj w).world
    simp [binding.gets, binding.get, newSingletonConstructorBinding,
      singletonConstructorBinding.get, hret, hdone, List.replicate_succ]
  | some pair =>
    have hdone := binding_gets_done Injector rt
      (⟨⟨constructor⟩, some ⟨pair.1, pair.2⟩, true⟩ : singletonConstructorBinding W V) rfl rest
      (constructorBinding.get Injector rt ⟨constructor⟩ inj w).world
    simp [binding.gets, binding.get, newSingletonConstructorBinding,
      singletonConstructorBinding.get, hret, hdone, List.replicate_succ]

/-- C2 as stated fails: on a new binding of `func(A)`, with an injector that
resolves `A` to `(nil, nil)`, neither of two successive calls returns a pair.
The one run panics in `Call`, and the second call panics on the empty
`atomic.Value`; the only event of the two calls is the lookup of `A`. -/
theorem singletonConstructorBinding_get_once_counterexample :
    (binding.gets exInjectorType exReflect (newSingletonConstructorBinding exCtorA)
        [exNilInjector, exNilInjector] 0).1 = [none, none]
    ∧ (binding.gets exInjectorType exReflect (newSingletonConstructorBinding exCtorA)
        [exNilInjector, exNilInjector] 0).2.2.2 = [Event.lookup exA] :=
  ⟨rfl, rfl⟩

/-- C4: intermediate never terminal. For every binding key `k`, injector and
world state, `newIntermediateBinding(k).get` returns a nil value and an error
of type `InjectErrorTypeIntermediateBinding` (tagged with `k`), and
`newIntermediateBinding(k).bindingKey()` returns `(k, nil)`. -/
theorem intermediateBinding_never_terminal (Injector : RType) (rt : Reflect V) (k : BindingKey)
    (inj : injector W V) (w : W) :
    ((newIntermediateBinding k : binding W V).get Injector rt inj w).2.ret
        = some (none, some (.injectError InjectErrorTypeIntermediateBinding
            [("bindingKey", .ofBindingKey k)]))
    ∧ (∀ e, ((newIntermediateBinding k : binding W V).get Injector rt inj w).2.ret
          = some (none, some e) → e.errorType = some InjectErrorTypeIntermediateBinding)
    ∧ (newIntermediateBinding k : binding W V).bindingKey = (some k, none) := by
  refine ⟨rfl, ?_, rfl⟩
  intro e he
  have h : e = .injectError InjectErrorTypeIntermediateBinding
      [("bindingKey", .ofBindingKey k)] := by
    simp [newIntermediateBinding, binding.get, intermediateBinding.get, newErrorBuilder,
      errorBuilder.addTag, errorBuilder.build] at he
    exact he.symm
  rw [h]
  rfl

/-- C5: terminal bindings have no forwarding key. The bindings built by
`newSingletonBinding` and `newConstructorBinding`, and a
`singletonConstructorBinding` in any state of its cache, return a nil key and
an error of type `InjectErrorTypeFinalBinding` from `bindingKey()`; and
`bindingKey()` of a binding returns no error if and only if the binding is an
`intermediateBinding`. -/
theorem terminal_bindingKey_fails :
    (∀ v : Option V, (newSingletonBinding v : binding W V).bindingKey
        = (none, some (.injectError InjectErrorTypeFinalBinding [])))
    ∧ (∀ c : Func W V, (newConstructorBinding c).bindingKey
        = (none, some (.injectError InjectErrorTypeFinalBinding [])))
    ∧ (∀ this : singletonConstructorBinding W V,
        (binding.ofSingletonConstructor this).bindingKey
          = (none, some (.injectError InjectErrorTypeFinalBinding [])))
    ∧ (∀ c : Func W V, (newSingletonConstructorBinding c).bindingKey
        = (none, some (.injectError InjectErrorTypeFinalBinding [])))
    ∧ (∀ b : binding W V,
        b.bindingKey.2 = none ↔ ∃ this : intermediateBinding, b = .ofIntermediate this) := by
  refine ⟨fun _ => rfl, fun _ => rfl, fun _ => rfl, fun _ => rfl, ?_⟩
  intro b
  cases b with
  | ofIntermediate this => simp [binding.bindingKey, intermediateBinding.bindingKey]
  | ofSingleton this =>
    simp [binding.bindingKey, singletonBinding.bindingKey]
  | ofConstructor this =>
    simp [binding.bindingKey, constructorBinding.bindingKey]
  | ofSingletonConstructor this =>
    simp [binding.bindingKey, singletonConstructorBinding.bindingKey,
      constructorBinding.bindingKey]

/-- C7, as the code has it: the resolver escape hatch of
`constructorBinding.get`. The lookups are skipped exactly under the guard: the
constructor declares one parameter and its type is assignable to `Injector`
(the interface or a type that implements it). The injector itself is then the
sole argument, the only event being that invocation, exactly when moreover
the type of the injector pointer is assignable to the parameter; when it is
not, `Call` panics and there is no event at all. In every other case the
parameters are normalized and requested from the injector in declaration
order: either up to the first one that fails, or all of them, and then the
constructor is invoked on the values the injector returned if `Call` accepts
them, and `get` panics without invoking it if not. -/
theorem constructorBinding_get_escape_hatch (Injector : RType) (rt : Reflect V)
    (this : constructorBinding W V) (inj : injector W V) (w : W) :
    (takesInjector Injector this.constructor.ins = true
        ↔ ∃ in0, this.constructor.ins = [in0] ∧ in0.AssignableTo Injector = true)
    ∧ ((this.get Injector rt inj w).trace = [Event.invoke [Arg.ofInjector inj]]
        ↔ ∃ in0, this.constructor.ins = [in0] ∧ in0.AssignableTo Injector = true
            ∧ rt.injectorType.AssignableTo in0 = true)
    ∧ (∀ in0, this.constructor.ins = [in0] → in0.AssignableTo Injector = true →
        rt.injectorType.AssignableTo in0 = false →
        (this.get Injector rt inj w).ret = none ∧ (this.get Injector rt inj w).trace = [])
    ∧ (takesInjector Injector this.constructor.ins = false →
        (∃ n, n < this.constructor.ins.length ∧ (this.get Injector rt inj w).trace
            = (this.constructor.ins.take (n + 1)).map (fun t => Event.lookup (normalized t)))
        ∨ (∃ vs : List (Option V), vs.length = this.constructor.ins.length
            ∧ callAccepts rt this.constructor.ins (vs.map Arg.ofValue : List (Arg W V)) = true
            ∧ (this.get Injector rt inj w).trace
              = this.constructor.ins.map (fun t => Event.lookup (normalized t))
                ++ [Event.invoke (vs.map Arg.ofValue)])
        ∨ (∃ vs : List (Option V), vs.length = this.constructor.ins.length
            ∧ callAccepts rt this.constructor.ins (vs.map Arg.ofValue : List (Arg W V)) = false
            ∧ (this.get Injector rt inj w).ret = none
            ∧ (this.get Injector rt inj w).trace
              = this.constructor.ins.map (fun t => Event.lookup (normalized t)))) := by
  have hiff : takesInjector Injector this.constructor.ins = true
      ↔ ∃ in0, this.constructor.ins = [in0] ∧ in0.AssignableTo Injector = true := by
    rcases hins : this.constructor.ins with _ | ⟨a, _ | ⟨b, l⟩⟩ <;> simp [takesInjector]
  have haccepts : ∀ in0, this.constructor.ins = [in0] →
      callAccepts rt this.constructor.ins [Arg.ofInjector inj]
        = rt.injectorType.AssignableTo in0 := by
    intro in0 hins
    simp [hins, callAccepts, Arg.Type]
  refine ⟨hiff, ⟨?_, ?_⟩, ?_, get_cases Injector rt this inj w⟩
  · intro htrace
    cases h : takesInjector Injector this.constructor.ins with
    | true =>
      obtain ⟨in0, hins, hguard⟩ := hiff.mp h
      refine ⟨in0, hins, hguard, ?_⟩
      cases hinj : rt.injectorType.AssignableTo in0 with
      | true => rfl
      | false =>
        have hrej := (get_special Injector rt this inj w h).2
          (by rw [haccepts in0 hins, hinj])
        rw [hrej.2] at htrace
        simp at htrace
    | false =>
      exfalso
      rcases get_cases Injector rt this inj w h with
        ⟨n, hn, hlk⟩ | ⟨vs, hlen, _, hlk⟩ | ⟨vs, hlen, _, _, hlk⟩
      · rw [htrace] at hlk
        rcases hins : this.constructor.ins with _ | ⟨a, l⟩
        · simp [hins] at hn
        · simp [hins] at hlk
      · rw [htrace] at hlk
        rcases hins : this.constructor.ins with _ | ⟨a, l⟩
        · rw [hins] at hlen
          have hvs : vs = [] := List.length_eq_zero.mp hlen
          simp [hins, hvs] at hlk
        · simp [hins] at hlk
      · rw [htrace] at hlk
        rcases hins : this.constructor.ins with _ | ⟨a, l⟩
        · simp [hins] at hlk
        · simp [hins] at hlk
  · rintro ⟨in0, hins, hguard, hinj⟩
    have h := hiff.mpr ⟨in0, hins, hguard⟩
    exact (get_special Injector rt this inj w h).1 (by rw [haccepts in0 hins, hinj])
  · intro in0 hins hguard hinj
    have h := hiff.mpr ⟨in0, hins, hguard⟩
    exact (get_special Injector rt this inj w h).2 (by rw [haccepts in0 hins, hinj])

/-- An instance of C7 as the code has it: a constructor `func(Injector)`
receives the injector and no lookup is made; for a constructor
`func(*fakeInjector)`, whose parameter passes the guard, `get` panics without
any event, a `*injector` not being assignable to the parameter. -/
theorem constructorBinding_get_escape_hatch_witness :
    (constructorBinding.get exInjectorType exReflect ⟨exCtorInjector⟩ exInjector 0).trace
      = [Event.invoke [Arg.ofInjector exInjector]]
    ∧ (constructorBinding.get exInjectorType exReflect ⟨exCtorFakeInjector⟩ exInjector 0).ret
      = none
    ∧ (constructorBinding.get exInjectorType exReflect ⟨exCtorFakeInjector⟩ exInjector 0).trace
      = [] :=
  ⟨(constructorBinding_get_escape_hatch exInjectorType exReflect ⟨exCtorInjector⟩ exInjector
      0).2.1.2 ⟨exInjectorType, rfl, by decide, by decide⟩,
    (constructorBinding_get_escape_hatch exInjectorType exReflect ⟨exCtorFakeInjector⟩
      exInjector 0).2.2.1 exFakeInjectorPtr rfl (by decide) (by decide)⟩

/-- C7 as stated fails: the sole parameter of `func(*injector)` is not the
interface `Injector` (it is a pointer, not an interface), yet the injector
itself is passed and the parameter is not requested from the injector. -/
theorem constructorBinding_get_escape_hatch_counterexample :
    exCtorInjectorPtr.ins = [exInjectorPtr]
    ∧ exInjectorPtr ≠ exInjectorType
    ∧ exInjectorPtr.Kind = Kind.ptr ∧ exInjectorType.Kind = Kind.interface
    ∧ (constructorBinding.get exInjectorType exReflect ⟨exCtorInjectorPtr⟩ exInjector 0).trace
        = [Event.invoke [Arg.ofInjector exInjector]]
    ∧ (∀ t, Event.lookup t ∉
        (constructorBinding.get exInjectorType exReflect ⟨exCtorInjectorPtr⟩ exInjector
          0).trace) := by
  refine ⟨rfl, ?_, rfl, rfl, rfl, ?_⟩
  · intro h
    have hk : exInjectorPtr.Kind = exInjectorType.Kind := by rw [h]
    exact absurd hk (by decide)
  · intro t ht
    have htr : (constructorBinding.get exInjectorType exReflect ⟨exCtorInjectorPtr⟩ exInjector
        0).trace = [Event.invoke [Arg.ofInjector exInjector]] := rfl
    rw [htr] at ht
    simp at ht

/-! ## Lemmas on shape validation -/

/-- When `verifyParameterCanBeInjected` returns no error. -/
theorem verifyParameter_none_iff (ck : RType → Kind × Bool) (t : RType) (tag : String) :
    verifyParameterCanBeInjected ck t tag = none
      ↔ (tag = "" ∧ isSupportedNoTagParameterReflectType t = true)
        ∨ (tag ≠ "" ∧ isSupportedBindingKeyReflectType ck t = true) := by
  unfold verifyParameterCanBeInjected
  by_cases htag : tag = ""
  · cases h : isSupportedNoTagParameterReflectType t <;> simp [htag, h]
  · cases h : isSupportedBindingKeyReflectType ck t <;> simp [htag, h]

/-- The error of `verifyParameterCanBeInjected`, when there is one. -/
theorem verifyParameter_error (ck : RType → Kind × Bool) (t : RType) (tag : String) (e : GoError)
    (h : verifyParameterCanBeInjected ck t tag = some e) :
    e = .injectError injectErrorTypeNotSupportedYet [("parameterReflectType", .ofType t)] := by
  unfold verifyParameterCanBeInjected at h
  simp only [newErrorBuilder, errorBuilder.addTag, errorBuilder.build, List.nil_append] at h
  split at h
  · exact (Option.some.inj h).symm
  · split at h
    · exact (Option.some.inj h).symm
    · exact absurd h (by simp)

/-- The loop over the fields returns no error exactly when every field passes. -/
theorem verifyStruct_loop_none_iff (ck : RType → Kind × Bool) (fields : List StructField) :
    verifyStructCanBePopulated.loop ck fields = none
      ↔ ∀ fld ∈ fields, verifyParameterCanBeInjected ck
          (getStructFieldReflectTypeAndTag fld).1 (getStructFieldReflectTypeAndTag fld).2 = none := by
  induction fields with
  | nil => simp [verifyStructCanBePopulated.loop]
  | cons fld rest ih =>
    cases h : verifyParameterCanBeInjected ck
        (getStructFieldReflectTypeAndTag fld).1 (getStructFieldReflectTypeAndTag fld).2 with
    | none => simp [verifyStructCanBePopulated.loop, h, ih]
    | some e => simp [verifyStructCanBePopulated.loop, h]

/-- The loop over the fields returns the error of the first field that fails. -/
theorem verifyStruct_loop_first (ck : RType → Kind × Bool) (ok post : List StructField)
    (fld : StructField) (e : GoError)
    (hok : ∀ g ∈ ok, verifyParameterCanBeInjected ck
        (getStructFieldReflectTypeAndTag g).1 (getStructFieldReflectTypeAndTag g).2 = none)
    (hfld : verifyParameterCanBeInjected ck
        (getStructFieldReflectTypeAndTag fld).1 (getStructFieldReflectTypeAndTag fld).2 = some e) :
    verifyStructCanBePopulated.loop ck (ok ++ fld :: post) = some e := by
  induction ok with
  | nil => simp [verifyStructCanBePopulated.loop, hfld]
  | cons g rest ih =>
    have hg := hok g (by simp)
    have hrest := ih (fun x hx => hok x (by simp [hx]))
    simp [verifyStructCanBePopulated.loop, hg, hrest]

/-- C8: structural rejection by `verifyIsTaggedFunc`. For a function type with
parameters `ins`, if there is not exactly one parameter, or the one parameter
is not of struct kind, or it is a named struct, the result is an error of type
`injectErrorTypeTaggedParametersInvalid` (tagged with the function type),
whatever the fields are. -/
theorem verifyIsTaggedFunc_rejects (ck : RType → Kind × Bool) (f : RType) (ins : List RType)
    (hf : f.Ins = some ins)
    (hbad : ins.length ≠ 1 ∨ ∃ t, ins = [t] ∧ (t.Kind ≠ Kind.struct ∨ t.Name ≠ "")) :
    verifyIsTaggedFunc ck f
      = some (some (.injectError injectErrorTypeTaggedParametersInvalid
          [("funcReflectType", .ofType f)])) := by
  obtain ⟨name, methods, shape⟩ := f
  cases shape <;> simp [RType.Ins, RType.shape] at hf
  subst hf
  rcases hbad with hlen | ⟨t, rfl, hkind | hname⟩
  · simp [verifyIsTaggedFunc, isFunc, RType.Kind, RType.shape, Shape.Kind, RType.NumIn,
      RType.Ins, hlen, newErrorBuilder, errorBuilder.addTag, errorBuilder.build]
  · simp [verifyIsTaggedFunc, isFunc, isStruct, RType.Kind, RType.shape, Shape.Kind,
      RType.NumIn, RType.In, RType.Ins, newErrorBuilder, errorBuilder.addTag,
      errorBuilder.build]
    intro hk
    exact absurd hk hkind
  · by_cases hk : isStruct t = true
    · simp [verifyIsTaggedFunc, isFunc, hk, hname, RType.Kind, RType.shape, Shape.Kind,
        RType.NumIn, RType.In, RType.Ins, newErrorBuilder, errorBuilder.addTag,
        errorBuilder.build]
    · simp [verifyIsTaggedFunc, isFunc, hk, RType.Kind, RType.shape, Shape.Kind,
        RType.NumIn, RType.In, RType.Ins, newErrorBuilder, errorBuilder.addTag,
        errorBuilder.build]

/-- An instance of C8: `func(A)`, whose parameter is the named struct `A`, is
rejected. -/
theorem verifyIsTaggedFunc_rejects_witness :
    verifyIsTaggedFunc constantKindForReflectType exFuncNamedStruct
      = some (some (.injectError injectErrorTypeTaggedParametersInvalid
          [("funcReflectType", .ofType exFuncNamedStruct)])) :=
  verifyIsTaggedFunc_rejects constantKindForReflectType exFuncNamedStruct [exA] rfl
    (Or.inr ⟨exA, rfl, Or.inr (by decide)⟩)

/-- C9, as the code has it: acceptance by `verifyIsTaggedFunc`. A function
type whose single parameter is an anonymous struct is accepted (the result is
nil) when each field, its type normalized, is concrete-value- or
contract-shaped, or carries a non-empty `injectTag` and is concrete-value-,
contract- or constant-shaped. -/
theorem verifyIsTaggedFunc_accepts (ck : RType → Kind × Bool) (f s : RType)
    (fields : List StructField)
    (hf : f.Ins = some [s]) (hs : s.Fields = some fields) (hname : s.Name = "")
    (hfields : ∀ fld ∈ fields,
      isSupportedNoTagParameterReflectType (getStructFieldReflectTypeAndTag fld).1 = true
      ∨ ((getStructFieldReflectTypeAndTag fld).2 ≠ ""
          ∧ isSupportedBindingKeyReflectType ck (getStructFieldReflectTypeAndTag fld).1 = true)) :
    verifyIsTaggedFunc ck f = some none := by
  have hloop : verifyStructCanBePopulated.loop ck fields = none := by
    rw [verifyStruct_loop_none_iff]
    intro fld hfld
    rw [verifyParameter_none_iff]
    rcases hfields fld hfld with h | ⟨htag, h⟩
    · by_cases htag : (getStructFieldReflectTypeAndTag fld).2 = ""
      · exact Or.inl ⟨htag, h⟩
      · refine Or.inr ⟨htag, ?_⟩
        simp only [isSupportedNoTagParameterReflectType] at h
        simp [isSupportedBindingKeyReflectType, h]
    · exact Or.inr ⟨htag, h⟩
  obtain ⟨name, methods, shape⟩ := f
  cases shape <;> simp [RType.Ins, RType.shape] at hf
  subst hf
  obtain ⟨sname, smethods, sshape⟩ := s
  cases sshape <;> simp [RType.Fields, RType.shape] at hs
  subst hs
  simp only [RType.Name] at hname
  subst hname
  simp [verifyIsTaggedFunc, verifyStructCanBePopulated, isFunc, isStruct, RType.Kind,
    RType.shape, Shape.Kind, RType.NumIn, RType.In, RType.Ins, RType.Fields, RType.Name, hloop]

/-- An instance of C9 as the code has it: the parameter
`struct{ A A; C C; N int "injectTag:\"n\"" }` is accepted. -/
theorem verifyIsTaggedFunc_accepts_witness :
    verifyIsTaggedFunc constantKindForReflectType exFuncTagged = some none :=
  verifyIsTaggedFunc_accepts constantKindForReflectType exFuncTagged
    (.mk "" [] (.struct
      [.mk "A" exA [], .mk "C" exC [], .mk "N" exInt [("injectTag", "n")]]))
    [.mk "A" exA [], .mk "C" exC [], .mk "N" exInt [("injectTag", "n")]]
    rfl rfl rfl
    (by
      intro fld hfld
      simp only [List.mem_cons, List.mem_singleton, List.not_mem_nil, or_false] at hfld
      rcases hfld with rfl | rfl | rfl
      · exact Or.inl rfl
      · exact Or.inl rfl
      · exact Or.inr ⟨by decide, rfl⟩)

/-- C9 as stated fails: the single parameter of `func(struct{ X int })` is an
anonymous struct whose one field is constant-shaped, and the function is
rejected, with an error of type `injectErrorTypeNotSupportedYet`, because the
field has no tag. -/
theorem verifyIsTaggedFunc_accepts_counterexample :
    exFuncUntaggedInt.Ins = some [.mk "" [] (.struct [.mk "X" exInt []])]
    ∧ isSupportedBindConstantReflectType constantKindForReflectType exInt = true
    ∧ isSupportedBindingKeyReflectType constantKindForReflectType
        (getStructFieldReflectTypeAndTag (.mk "X" exInt [])).1 = true
    ∧ verifyIsTaggedFunc constantKindForReflectType exFuncUntaggedInt
        = some (some (.injectError injectErrorTypeNotSupportedYet
            [("parameterReflectType", .ofType exInt)]))
    ∧ verifyIsTaggedFunc constantKindForReflectType exFuncUntaggedInt ≠ some none := by
  refine ⟨rfl, rfl, rfl, rfl, ?_⟩
  intro h
  have h2 : verifyIsTaggedFunc constantKindForReflectType exFuncUntaggedInt
      = some (some (.injectError injectErrorTypeNotSupportedYet
          [("parameterReflectType", .ofType exInt)])) := rfl
  rw [h2] at h
  simp at h

/-- C10: the field rule. `verifyParameterCanBeInjected(t, tag)` returns nil if
and only if the tag is empty and `t` passes
`isSupportedNoTagParameterReflectType`, or the tag is not empty and `t` passes
`isSupportedBindingKeyReflectType`; any error it returns has type
`injectErrorTypeNotSupportedYet`. For a struct type with fields `fields`,
`verifyStructCanBePopulated` returns nil if and only if every field passes the
rule, and when a field fails after fields that pass it returns the error of
that field. -/
theorem verifyParameterCanBeInjected_field_rule (ck : RType → Kind × Bool) :
    (∀ t tag, verifyParameterCanBeInjected ck t tag = none
      ↔ (tag = "" ∧ isSupportedNoTagParameterReflectType t = true)
        ∨ (tag ≠ "" ∧ isSupportedBindingKeyReflectType ck t = true))
    ∧ (∀ t tag e, verifyParameterCanBeInjected ck t tag = some e →
        e.errorType = some injectErrorTypeNotSupportedYet)
    ∧ (∀ s fields, s.Fields = some fields →
        (verifyStructCanBePopulated ck s = some none
          ↔ ∀ fld ∈ fields, verifyParameterCanBeInjected ck
              (getStructFieldReflectTypeAndTag fld).1 (getStructFieldReflectTypeAndTag fld).2
                = none))
    ∧ (∀ s ok fld post e, s.Fields = some (ok ++ fld :: post) →
        (∀ g ∈ ok, verifyParameterCanBeInjected ck
            (getStructFieldReflectTypeAndTag g).1 (getStructFieldReflectTypeAndTag g).2 = none) →
        verifyParameterCanBeInjected ck
            (getStructFieldReflectTypeAndTag fld).1 (getStructFieldReflectTypeAndTag fld).2
              = some e →
        verifyStructCanBePopulated ck s = some (some e)) := by
  refine ⟨verifyParameter_none_iff ck, ?_, ?_, ?_⟩
  · intro t tag e h
    rw [verifyParameter_error ck t tag e h]
    rfl
  · intro s fields hs
    simp [verifyStructCanBePopulated, hs, verifyStruct_loop_none_iff]
  · intro s ok fld post e hs hok hfld
    simp [verifyStructCanBePopulated, hs, verifyStruct_loop_first ck ok post fld e hok hfld]

/-- An instance of C10: in `struct{ A A; X int; Y []int }`, without tags, the
field `A` passes and the fields `X` and `Y` fail; the error returned is the
one of `X`, the first of the two. -/
theorem verifyParameterCanBeInjected_field_rule_witness :
    verifyStructCanBePopulated constantKindForReflectType exStructTwoOffenders
      = some (some (.injectError injectErrorTypeNotSupportedYet
          [("parameterReflectType", .ofType exInt)])) :=
  (verifyParameterCanBeInjected_field_rule constantKindForReflectType).2.2.2
    exStructTwoOffenders [.mk "A" exA []] (.mk "X" exInt [])
    [.mk "Y" (.mk "" [] (.slice exInt)) []]
    (.injectError injectErrorTypeNotSupportedYet [("parameterReflectType", .ofType exInt)])
    rfl
    (by
      intro g hg
      simp only [List.mem_singleton] at hg
      subst hg
      rfl)
    rfl

/-! ## Lemmas on function shapes -/

/-- A type is of function kind exactly when it has a parameter list. -/
theorem ins_of_kind_func (t : RType) : t.Kind = Kind.func ↔ ∃ ins, t.Ins = some ins := by
  obtain ⟨name, methods, shape⟩ := t
  cases shape with
  | basic k => cases k <;> simp [RType.Kind, RType.Ins, RType.shape, Shape.Kind, BasicKind.toKind]
  | _ => simp [RType.Kind, RType.Ins, RType.shape, Shape.Kind]

/-- A type is of struct kind exactly when it has a field list. -/
theorem fields_of_kind_struct (t : RType) :
    t.Kind = Kind.struct ↔ ∃ fields, t.Fields = some fields := by
  obtain ⟨name, methods, shape⟩ := t
  cases shape with
  | basic k =>
    cases k <;> simp [RType.Kind, RType.Fields, RType.shape, Shape.Kind, BasicKind.toKind]
  | _ => simp [RType.Kind, RType.Fields, RType.shape, Shape.Kind]

/-- The untagged rule accepts a type exactly when it is a struct, a pointer to
a struct or a pointer to an interface. -/
theorem noTag_iff (t : RType) :
    isSupportedNoTagParameterReflectType t = true
      ↔ isConcreteValueShaped t = true ∨ isContractShaped t = true := by
  obtain ⟨name, methods, shape⟩ := t
  cases shape with
  | ptr elem =>
    simp only [isSupportedNoTagParameterReflectType, isSupportedBindReflectType,
      isSupportedBindInterfaceReflectType, isConcreteValueShaped, isContractShaped, RType.shape]
    generalize elem.Kind = k
    cases k <;> simp
  | _ =>
    simp [isSupportedNoTagParameterReflectType, isSupportedBindReflectType,
      isSupportedBindInterfaceReflectType, isConcreteValueShaped, isContractShaped, RType.shape]

/-- A parameter passes the check of `verifyIsFunc` exactly when it has one of
the four parameter shapes. -/
theorem verifyIsFunc_parameter_iff (ck : RType → Kind × Bool) (p : RType) :
    verifyParameterCanBeInjected ck (normalized p) "" = none ↔ isParameterShaped p = true := by
  rw [verifyParameter_none_iff]
  obtain ⟨name, methods, shape⟩ := p
  cases shape with
  | basic k =>
    cases k <;>
      simp [normalized, RType.Kind, RType.shape, Shape.Kind, BasicKind.toKind,
        isSupportedNoTagParameterReflectType, isSupportedBindReflectType,
        isSupportedBindInterfaceReflectType, isParameterShaped]
  | ptr elem =>
    have hn : normalized (.mk name methods (.ptr elem)) = .mk name methods (.ptr elem) := rfl
    rw [hn]
    simp only [isSupportedNoTagParameterReflectType, isSupportedBindReflectType,
      isSupportedBindInterfaceReflectType, isParameterShaped, RType.shape]
    generalize elem.Kind = k
    cases k <;> simp
  | _ =>
    simp [normalized, PtrTo, RType.Kind, RType.shape, Shape.Kind,
      isSupportedNoTagParameterReflectType, isSupportedBindReflectType,
      isSupportedBindInterfaceReflectType, isParameterShaped]

/-- A type that has none of the four parameter shapes is not an interface, so
the normalization leaves it as it is. -/
theorem normalized_of_not_parameterShaped (p : RType) (h : isParameterShaped p = false) :
    normalized p = p := by
  obtain ⟨name, methods, shape⟩ := p
  cases shape with
  | basic k => cases k <;> simp [normalized, RType.Kind, RType.shape, Shape.Kind, BasicKind.toKind]
  | interface => simp [isParameterShaped, RType.shape] at h
  | _ => simp [normalized, RType.Kind, RType.shape, Shape.Kind]

/-- The loop of `verifyIsFunc` reads as a loop over the normalized types. -/
theorem verifyIsFunc_loop_cons (ck : RType → Kind × Bool) (p : RType) (rest : List RType) :
    verifyIsFunc.loop ck (p :: rest)
      = match verifyParameterCanBeInjected ck (normalized p) "" with
        | some err => some err
        | none => verifyIsFunc.loop ck rest := by
  simp [verifyIsFunc.loop, normalized, isInterface]

/-- The loop of `verifyIsFunc` returns no error exactly when every parameter
has one of the four parameter shapes. -/
theorem verifyIsFunc_loop_none_iff (ck : RType → Kind × Bool) (ins : List RType) :
    verifyIsFunc.loop ck ins = none ↔ ∀ p ∈ ins, isParameterShaped p = true := by
  induction ins with
  | nil => simp [verifyIsFunc.loop]
  | cons p rest ih =>
    rw [verifyIsFunc_loop_cons]
    cases h : verifyParameterCanBeInjected ck (normalized p) "" with
    | none =>
      have hp := (verifyIsFunc_parameter_iff ck p).mp h
      simp [ih, hp]
    | some e =>
      have hp : isParameterShaped p ≠ true := fun hp => by
        rw [(verifyIsFunc_parameter_iff ck p).mpr hp] at h
        exact absurd h (by simp)
      simp [hp]

/-- An error of the loop of `verifyIsFunc` is the error of one parameter. -/
theorem verifyIsFunc_loop_error (ck : RType → Kind × Bool) (ins : List RType) (e : GoError)
    (h : verifyIsFunc.loop ck ins = some e) :
    ∃ p ∈ ins, e = .injectError injectErrorTypeNotSupportedYet
      [("parameterReflectType", .ofType (normalized p))] := by
  induction ins with
  | nil => simp [verifyIsFunc.loop] at h
  | cons p rest ih =>
    rw [verifyIsFunc_loop_cons] at h
    cases hp : verifyParameterCanBeInjected ck (normalized p) "" with
    | none =>
      rw [hp] at h
      obtain ⟨q, hq, he⟩ := ih h
      exact ⟨q, by simp [hq], he⟩
    | some e1 =>
      rw [hp] at h
      have he : e1 = e := Option.some.inj h
      subst he
      exact ⟨p, by simp, verifyParameter_error ck (normalized p) "" e1 hp⟩

/-- The loop of `verifyIsFunc` returns the error of the first parameter that
has none of the four parameter shapes. -/
theorem verifyIsFunc_loop_first (ck : RType → Kind × Bool) (ok post : List RType) (p : RType)
    (hok : ∀ q ∈ ok, isParameterShaped q = true) (hp : isParameterShaped p = false) :
    verifyIsFunc.loop ck (ok ++ p :: post)
      = some (.injectError injectErrorTypeNotSupportedYet
          [("parameterReflectType", .ofType p)]) := by
  induction ok with
  | nil =>
    rw [List.nil_append, verifyIsFunc_loop_cons]
    cases h : verifyParameterCanBeInjected ck (normalized p) "" with
    | none =>
      rw [(verifyIsFunc_parameter_iff ck p).mp h] at hp
      exact absurd hp (by simp)
    | some e =>
      rw [verifyParameter_error ck (normalized p) "" e h, normalized_of_not_parameterShaped p hp]
  | cons q rest ih =>
    have hq := (verifyIsFunc_parameter_iff ck q).mpr (hok q (by simp))
    rw [List.cons_append, verifyIsFunc_loop_cons, hq]
    exact ih (fun x hx => hok x (by simp [hx]))

/-- On a function type `verifyIsFunc` returns what its loop returns. -/
theorem verifyIsFunc_of_func (ck : RType → Kind × Bool) (f : RType) (ins : List RType)
    (hf : f.Ins = some ins) : verifyIsFunc ck f = some (verifyIsFunc.loop ck ins) := by
  have hk : f.Kind = Kind.func := (ins_of_kind_func f).mpr ⟨ins, hf⟩
  simp [verifyIsFunc, isFunc, hk, hf]

/-- On a type that is not a function `verifyIsFunc` returns the error of type
`injectErrorTypeNotFunction`. -/
theorem verifyIsFunc_of_not_func (ck : RType → Kind × Bool) (t : RType)
    (hk : t.Kind ≠ Kind.func) :
    verifyIsFunc ck t = some (some (.injectError injectErrorTypeNotFunction
      [("funcReflectType", .ofType t)])) := by
  simp [verifyIsFunc, isFunc, hk, newErrorBuilder, errorBuilder.addTag, errorBuilder.build]

/-- On a type that is not a function `verifyIsTaggedFunc` returns the error of
type `injectErrorTypeNotFunction`. -/
theorem verifyIsTaggedFunc_of_not_func (ck : RType → Kind × Bool) (t : RType)
    (hk : t.Kind ≠ Kind.func) :
    verifyIsTaggedFunc ck t = some (some (.injectError injectErrorTypeNotFunction
      [("funcReflectType", .ofType t)])) := by
  simp [verifyIsTaggedFunc, isFunc, hk, newErrorBuilder, errorBuilder.addTag,
    errorBuilder.build]

/-- An error of the loop of `verifyStructCanBePopulated` is the error of one
field. -/
theorem verifyStruct_loop_error (ck : RType → Kind × Bool) (fields : List StructField)
    (e : GoError) (h : verifyStructCanBePopulated.loop ck fields = some e) :
    ∃ fld ∈ fields, e = .injectError injectErrorTypeNotSupportedYet
      [("parameterReflectType", .ofType (getStructFieldReflectTypeAndTag fld).1)] := by
  induction fields with
  | nil => simp [verifyStructCanBePopulated.loop] at h
  | cons fld rest ih =>
    cases hp : verifyParameterCanBeInjected ck
        (getStructFieldReflectTypeAndTag fld).1 (getStructFieldReflectTypeAndTag fld).2 with
    | none =>
      simp only [verifyStructCanBePopulated.loop, hp] at h
      obtain ⟨g, hg, he⟩ := ih h
      exact ⟨g, by simp [hg], he⟩
    | some e1 =>
      simp only [verifyStructCanBePopulated.loop, hp] at h
      have he : e1 = e := Option.some.inj h
      subst he
      exact ⟨fld, by simp, verifyParameter_error ck _ _ e1 hp⟩

/-- On a function type `verifyIsTaggedFunc` either returns the error of type
`injectErrorTypeTaggedParametersInvalid`, or the one parameter is an anonymous
struct and it returns what the loop over the fields returns. -/
theorem verifyIsTaggedFunc_of_func (ck : RType → Kind × Bool) (f : RType) (ins : List RType)
    (hf : f.Ins = some ins) :
    verifyIsTaggedFunc ck f = some (some (.injectError injectErrorTypeTaggedParametersInvalid
        [("funcReflectType", .ofType f)]))
    ∨ ∃ s fields, ins = [s] ∧ s.Fields = some fields ∧ s.Name = ""
        ∧ verifyIsTaggedFunc ck f = some (verifyStructCanBePopulated.loop ck fields) := by
  have hk : f.Kind = Kind.func := (ins_of_kind_func f).mpr ⟨ins, hf⟩
  rcases ins with _ | ⟨s, _ | ⟨s2, l⟩⟩
  · left
    simp [verifyIsTaggedFunc, isFunc, hk, RType.NumIn, hf, newErrorBuilder,
      errorBuilder.addTag, errorBuilder.build]
  · by_cases hs : s.Kind = Kind.struct
    · by_cases hname : s.Name = ""
      · right
        obtain ⟨fields, hfields⟩ := (fields_of_kind_struct s).mp hs
        refine ⟨s, fields, rfl, hfields, hname, ?_⟩
        cases hl : verifyStructCanBePopulated.loop ck fields <;>
          simp [verifyIsTaggedFunc, isFunc, isStruct, hk, hs, hname, RType.NumIn, RType.In,
            hf, verifyStructCanBePopulated, hfields, hl]
      · left
        simp [verifyIsTaggedFunc, isFunc, isStruct, hk, hs, hname, RType.NumIn, RType.In, hf,
          newErrorBuilder, errorBuilder.addTag, errorBuilder.build]
    · left
      simp [verifyIsTaggedFunc, isFunc, isStruct, hk, hs, RType.NumIn, RType.In, hf,
        newErrorBuilder, errorBuilder.addTag, errorBuilder.build]
  · left
    simp [verifyIsTaggedFunc, isFunc, hk, RType.NumIn, hf, newErrorBuilder,
      errorBuilder.addTag, errorBuilder.build]

/-- A type of the constant whitelist has none of the four parameter shapes. -/
theorem constant_not_parameterShaped (p : RType)
    (h : isSupportedBindConstantReflectType constantKindForReflectType p = true) :
    isParameterShaped p = false := by
  obtain ⟨name, methods, shape⟩ := p
  cases shape with
  | basic k => simp [isParameterShaped, RType.shape]
  | _ =>
    simp [isSupportedBindConstantReflectType, constantKindForReflectType, RType.Kind,
      RType.shape, Shape.Kind] at h

/-! ## Properties of shape validation -/

/-- C11: characterisation of `verifyIsFunc` on functions. For a function type
with parameters `ins`, `verifyIsFunc` returns nil if and only if every
parameter is a struct, an interface, a pointer to a struct or a pointer to an
interface; otherwise it returns the error of type
`injectErrorTypeNotSupportedYet` for the first parameter of another shape, in
declaration order. A parameter of a constant kind (numeric, string, boolean)
makes it fail with that error type, and a function without parameters is
accepted. -/
theorem verifyIsFunc_characterisation (ck : RType → Kind × Bool) (f : RType) (ins : List RType)
    (hf : f.Ins = some ins) :
    (verifyIsFunc ck f = some none ↔ ∀ p ∈ ins, isParameterShaped p = true)
    ∧ (∀ ok p post, ins = ok ++ p :: post → (∀ q ∈ ok, isParameterShaped q = true) →
        isParameterShaped p = false →
        verifyIsFunc ck f = some (some (.injectError injectErrorTypeNotSupportedYet
          [("parameterReflectType", .ofType p)])))
    ∧ (∀ p ∈ ins, isSupportedBindConstantReflectType constantKindForReflectType p = true →
        ∃ e, verifyIsFunc ck f = some (some e)
          ∧ e.errorType = some injectErrorTypeNotSupportedYet)
    ∧ (ins = [] → verifyIsFunc ck f = some none) := by
  have hrun := verifyIsFunc_of_func ck f ins hf
  refine ⟨?_, ?_, ?_, ?_⟩
  · rw [hrun, ← verifyIsFunc_loop_none_iff ck ins]
    simp
  · intro ok p post hins hok hp
    rw [hrun, hins, verifyIsFunc_loop_first ck ok post p hok hp]
  · intro p hmem hconst
    have hp := constant_not_parameterShaped p hconst
    cases hloop : verifyIsFunc.loop ck ins with
    | none =>
      have hall := (verifyIsFunc_loop_none_iff ck ins).mp hloop p hmem
      rw [hp] at hall
      exact absurd hall (by simp)
    | some e =>
      obtain ⟨q, _, he⟩ := verifyIsFunc_loop_error ck ins e hloop
      exact ⟨e, by rw [hrun, hloop], by rw [he]; rfl⟩
  · intro hnil
    rw [hrun, hnil]
    rfl

/-- An instance of C11: `func(A, int, string)` is rejected with the error of
`int`, its first parameter of an unsupported shape. -/
theorem verifyIsFunc_characterisation_witness :
    verifyIsFunc constantKindForReflectType exFuncConstants
      = some (some (.injectError injectErrorTypeNotSupportedYet
          [("parameterReflectType", .ofType exInt)]))
    ∧ verifyIsFunc constantKindForReflectType exFuncGood = some none :=
  ⟨(verifyIsFunc_characterisation constantKindForReflectType exFuncConstants
      [exA, exInt, exString] rfl).2.1 [exA] exInt [exString] rfl
      (by
        intro q hq
        simp only [List.mem_singleton] at hq
        subst hq
        rfl)
      rfl,
    (verifyIsFunc_characterisation constantKindForReflectType exFuncGood
      [exA, exC, .mk "" [] (.ptr exA), PtrTo exC] rfl).1.mpr
      (by
        intro p hp
        simp only [List.mem_cons, List.mem_singleton, List.not_mem_nil, or_false] at hp
        rcases hp with rfl | rfl | rfl | rfl <;> rfl)⟩

/-- C12: not-a-function rejection. `verifyIsFunc` and `verifyIsTaggedFunc` each
return an error of type `injectErrorTypeNotFunction` if and only if the type is
not of function kind; on such a type that error (tagged with the type) is the
result whatever else holds of the type, and a type of function kind never
yields it. -/
theorem notFunction_iff (ck : RType → Kind × Bool) (t : RType) :
    ((∃ e, verifyIsFunc ck t = some (some e)
        ∧ e.errorType = some injectErrorTypeNotFunction) ↔ t.Kind ≠ Kind.func)
    ∧ ((∃ e, verifyIsTaggedFunc ck t = some (some e)
        ∧ e.errorType = some injectErrorTypeNotFunction) ↔ t.Kind ≠ Kind.func)
    ∧ (t.Kind ≠ Kind.func →
        verifyIsFunc ck t = some (some (.injectError injectErrorTypeNotFunction
          [("funcReflectType", .ofType t)]))
        ∧ verifyIsTaggedFunc ck t = some (some (.injectError injectErrorTypeNotFunction
          [("funcReflectType", .ofType t)]))) := by
  refine ⟨⟨?_, ?_⟩, ⟨?_, ?_⟩, ?_⟩
  · rintro ⟨e, hrun, htype⟩ hk
    obtain ⟨ins, hins⟩ := (ins_of_kind_func t).mp hk
    rw [verifyIsFunc_of_func ck t ins hins] at hrun
    obtain ⟨p, _, he⟩ := verifyIsFunc_loop_error ck ins e (Option.some.inj hrun)
    rw [he] at htype
    simp [GoError.errorType] at htype
  · intro hk
    exact ⟨_, verifyIsFunc_of_not_func ck t hk, rfl⟩
  · rintro ⟨e, hrun, htype⟩ hk
    obtain ⟨ins, hins⟩ := (ins_of_kind_func t).mp hk
    rcases verifyIsTaggedFunc_of_func ck t ins hins with h | ⟨s, fields, _, _, _, h⟩
    · rw [h] at hrun
      have he := Option.some.inj (Option.some.inj hrun)
      rw [← he] at htype
      simp [GoError.errorType] at htype
    · rw [h] at hrun
      obtain ⟨fld, _, he⟩ := verifyStruct_loop_error ck fields e (Option.some.inj hrun)
      rw [he] at htype
      simp [GoError.errorType] at htype
  · intro hk
    exact ⟨_, verifyIsTaggedFunc_of_not_func ck t hk, rfl⟩
  · intro hk
    exact ⟨verifyIsFunc_of_not_func ck t hk, verifyIsTaggedFunc_of_not_func ck t hk⟩

/-- C13: identity derivation preserves count and declaration order. For a
function type with `n` parameters `getParameterBindingKeysForFunc` returns `n`
keys, the `i`-th being the untagged key of the normalized type of parameter
`i`. For a struct type with `n` fields `getStructFieldBindingKeys` returns `n`
keys, the `i`-th built from the normalized type of field `i`: the tagged key
with the value of `injectTag` when it is not empty, the untagged key
otherwise; `getParameterBindingKeysForTaggedFunc` returns the same keys on a
function whose sole parameter is that struct. -/
theorem bindingKeys_in_declaration_order :
    (∀ (f : RType) (ins : List RType), f.Ins = some ins →
      ∃ keys, getParameterBindingKeysForFunc f = some keys ∧ keys.length = ins.length
        ∧ ∀ (i : Nat) (p : RType), ins[i]? = some p →
            keys[i]? = some (newBindingKey (normalized p)))
    ∧ (∀ (s : RType) (fields : List StructField), s.Fields = some fields →
      ∃ keys, getStructFieldBindingKeys s = some keys ∧ keys.length = fields.length
        ∧ ∀ (i : Nat) (fld : StructField), fields[i]? = some fld →
          (fld.Tag.Get taggedFuncStructFieldTag ≠ "" →
            keys[i]? = some (newTaggedBindingKey (normalized fld.Type)
              (fld.Tag.Get taggedFuncStructFieldTag)))
          ∧ (fld.Tag.Get taggedFuncStructFieldTag = "" →
            keys[i]? = some (newBindingKey (normalized fld.Type))))
    ∧ (∀ (f s : RType), f.Ins = some [s] →
      getParameterBindingKeysForTaggedFunc f = getStructFieldBindingKeys s) := by
  refine ⟨?_, ?_, ?_⟩
  · intro f ins hf
    refine ⟨ins.map (fun p => newBindingKey (normalized p)), ?_, by simp, ?_⟩
    · simp [getParameterBindingKeysForFunc, hf, normalized]
    · intro i p hp
      simp [List.getElem?_map, hp]
  · intro s fields hs
    refine ⟨fields.map (fun structField =>
      if (getStructFieldReflectTypeAndTag structField).2 ≠ "" then
        newTaggedBindingKey (getStructFieldReflectTypeAndTag structField).1
          (getStructFieldReflectTypeAndTag structField).2
      else newBindingKey (getStructFieldReflectTypeAndTag structField).1), ?_, by simp, ?_⟩
    · simp [getStructFieldBindingKeys, hs]
    · intro i fld hfld
      constructor
      · intro htag
        simp [List.getElem?_map, hfld, getStructFieldReflectTypeAndTag, normalized, htag]
      · intro htag
        simp [List.getElem?_map, hfld, getStructFieldReflectTypeAndTag, normalized, htag]
  · intro f s hf
    simp [getParameterBindingKeysForTaggedFunc, RType.In, hf]

/-- C14: contract normalization is idempotent. With `normalized t` the pointer
to `t` when `t` is of interface kind and `t` otherwise, normalizing twice gives
the same type, hence the same key, as normalizing once, and a normalized type
is never of interface kind; the field site applies this rule. -/
theorem normalized_idempotent (t : RType) :
    normalized (normalized t) = normalized t
    ∧ newBindingKey (normalized (normalized t)) = newBindingKey (normalized t)
    ∧ (∀ tag, newTaggedBindingKey (normalized (normalized t)) tag
        = newTaggedBindingKey (normalized t) tag)
    ∧ (normalized t).Kind ≠ Kind.interface
    ∧ (∀ fld : StructField, (getStructFieldReflectTypeAndTag fld).1 = normalized fld.Type) := by
  have h1 : normalized (normalized t) = normalized t := by
    obtain ⟨name, methods, shape⟩ := t
    cases shape with
    | basic k => cases k <;> rfl
    | _ => rfl
  refine ⟨h1, by rw [h1], fun tag => by rw [h1], ?_, fun fld => rfl⟩
  obtain ⟨name, methods, shape⟩ := t
  cases shape with
  | basic k =>
    cases k <;> simp [normalized, RType.Kind, RType.shape, Shape.Kind, BasicKind.toKind]
  | _ => simp [normalized, PtrTo, RType.Kind, RType.shape, Shape.Kind]

/-- C15: shape classification totality. `isSupportedBindingKeyReflectType` is
true exactly on the union of the concrete-value shape (struct or pointer to
struct), the contract shape (pointer to interface) and the constant shape
(accepted by `constantKindForReflectType`); on a type of no constant kind that
is a bare interface, a slice, a map, a function, an array, a channel or a
pointer to anything but a struct or an interface, it is false. -/
theorem isSupportedBindingKeyReflectType_total (ck : RType → Kind × Bool) (t : RType) :
    isSupportedBindingKeyReflectType ck t
        = (isConcreteValueShaped t || isContractShaped t || isConstantShaped ck t)
    ∧ (isSupportedBindingKeyReflectType ck t = true
        ↔ isConcreteValueShaped t = true ∨ isContractShaped t = true
          ∨ isSupportedBindConstantReflectType ck t = true)
    ∧ ((ck t).2 = false →
        (t.Kind = Kind.interface ∨ t.Kind = Kind.slice ∨ t.Kind = Kind.map
          ∨ t.Kind = Kind.func ∨ t.Kind = Kind.array ∨ t.Kind = Kind.chan
          ∨ ∃ elem, t.shape = Shape.ptr elem ∧ elem.Kind ≠ Kind.struct
              ∧ elem.Kind ≠ Kind.interface) →
        isSupportedBindingKeyReflectType ck t = false) := by
  have hunion : isSupportedBindingKeyReflectType ck t
      = (isConcreteValueShaped t || isContractShaped t || isConstantShaped ck t) := by
    obtain ⟨name, methods, shape⟩ := t
    cases shape with
    | ptr elem =>
      simp only [isSupportedBindingKeyReflectType, isSupportedBindReflectType,
        isSupportedBindInterfaceReflectType, isSupportedBindConstantReflectType,
        isConcreteValueShaped, isContractShaped, isConstantShaped, RType.shape]
      generalize elem.Kind = k
      cases k <;> simp
    | _ =>
      simp [isSupportedBindingKeyReflectType, isSupportedBindReflectType,
        isSupportedBindInterfaceReflectType, isSupportedBindConstantReflectType,
        isConcreteValueShaped, isContractShaped, isConstantShaped, RType.shape]
  refine ⟨hunion, ?_, ?_⟩
  · rw [hunion]
    simp [isConstantShaped, isSupportedBindConstantReflectType, or_assoc]
  · intro hck hshape
    rw [hunion]
    obtain ⟨name, methods, shape⟩ := t
    cases shape with
    | basic k =>
      simp [isConcreteValueShaped, isContractShaped, isConstantShaped, RType.shape, hck]
    | ptr elem =>
      rcases hshape with h | h | h | h | h | h | ⟨e, he, hs, hi⟩
      all_goals first
        | (simp [RType.Kind, RType.shape, Shape.Kind] at h)
        | (simp only [RType.shape, Shape.ptr.injEq] at he
           subst he
           simp [isConcreteValueShaped, isContractShaped, isConstantShaped, RType.shape, hck,
             hs, hi])
    | struct fields =>
      rcases hshape with h | h | h | h | h | h | ⟨e, he, _, _⟩
      all_goals first
        | (simp [RType.Kind, RType.shape, Shape.Kind] at h)
        | (simp [RType.shape] at he)
    | _ =>
      simp [isConcreteValueShaped, isContractShaped, isConstantShaped, RType.shape, hck]

/-- A type of the constant whitelist is neither a pointer nor a struct. -/
theorem constantKind_not_ptr_struct (t : RType) (h : (constantKindForReflectType t).2 = true) :
    t.Kind ≠ Kind.ptr ∧ t.Kind ≠ Kind.struct := by
  unfold constantKindForReflectType at h
  generalize t.Kind = k at h
  cases k <;> simp at h ⊢

/-- C16, as the code has it: the constant classifier is disjoint from the two
others (a constant kind being neither a pointer nor a struct), while
`isSupportedBindReflectType` accepts every type that
`isSupportedBindInterfaceReflectType` accepts: the two overlap exactly on the
pointers to an interface. So a type accepted by
`isSupportedBindingKeyReflectType` is accepted by the constant classifier alone
or by `isSupportedBindReflectType` and not by the constant classifier. -/
theorem classifiers_overlap (ck : RType → Kind × Bool)
    (hck : ∀ t, (ck t).2 = true → t.Kind ≠ Kind.ptr ∧ t.Kind ≠ Kind.struct) (t : RType) :
    (isSupportedBindInterfaceReflectType t = true → isSupportedBindReflectType t = true)
    ∧ ((isSupportedBindReflectType t = true ∧ isSupportedBindInterfaceReflectType t = true)
        ↔ isContractShaped t = true)
    ∧ (isSupportedBindConstantReflectType ck t = true →
        isSupportedBindReflectType t = false ∧ isSupportedBindInterfaceReflectType t = false)
    ∧ (isSupportedBindingKeyReflectType ck t = true →
        (isSupportedBindReflectType t = true ∧ isSupportedBindConstantReflectType ck t = false)
        ∨ (isSupportedBindConstantReflectType ck t = true
            ∧ isSupportedBindReflectType t = false
            ∧ isSupportedBindInterfaceReflectType t = false)) := by
  have hsub : isSupportedBindInterfaceReflectType t = true →
      isSupportedBindReflectType t = true := by
    obtain ⟨name, methods, shape⟩ := t
    cases shape with
    | ptr elem =>
      simp only [isSupportedBindReflectType, isSupportedBindInterfaceReflectType, RType.shape]
      generalize elem.Kind = k
      cases k <;> simp
    | _ => simp [isSupportedBindReflectType, isSupportedBindInterfaceReflectType, RType.shape]
  have hboth : (isSupportedBindReflectType t = true
      ∧ isSupportedBindInterfaceReflectType t = true) ↔ isContractShaped t = true := by
    obtain ⟨name, methods, shape⟩ := t
    cases shape with
    | ptr elem =>
      simp only [isSupportedBindReflectType, isSupportedBindInterfaceReflectType,
        isContractShaped, RType.shape]
      generalize elem.Kind = k
      cases k <;> simp
    | _ =>
      simp [isSupportedBindReflectType, isSupportedBindInterfaceReflectType,
        isContractShaped, RType.shape]
  have hconst : isSupportedBindConstantReflectType ck t = true →
      isSupportedBindReflectType t = false ∧ isSupportedBindInterfaceReflectType t = false := by
    intro h
    have hk := hck t h
    obtain ⟨name, methods, shape⟩ := t
    cases shape with
    | ptr elem => exact absurd rfl hk.1
    | struct fields => exact absurd rfl hk.2
    | _ => simp [isSupportedBindReflectType, isSupportedBindInterfaceReflectType, RType.shape]
  refine ⟨hsub, hboth, hconst, ?_⟩
  intro h
  cases hc : isSupportedBindConstantReflectType ck t with
  | true => exact Or.inr ⟨rfl, hconst hc⟩
  | false =>
    left
    refine ⟨?_, rfl⟩
    cases hb : isSupportedBindReflectType t with
    | true => rfl
    | false =>
      cases hi : isSupportedBindInterfaceReflectType t with
      | true => rw [hsub hi] at hb; exact absurd hb (by simp)
      | false => simp [isSupportedBindingKeyReflectType, hb, hi, hc] at h

/-- An instance of C16 as the code has it: `int` is accepted by the constant
classifier and by neither of the two others. -/
theorem classifiers_overlap_witness :
    isSupportedBindReflectType exInt = false
    ∧ isSupportedBindInterfaceReflectType exInt = false :=
  (classifiers_overlap constantKindForReflectType constantKind_not_ptr_struct exInt).2.2.1 rfl

/-- C16 as stated fails: the pointer to the interface `C` is accepted both by
`isSupportedBindReflectType` and by `isSupportedBindInterfaceReflectType`, so
the classifiers are not pairwise disjoint and this type, accepted by
`isSupportedBindingKeyReflectType`, is accepted by two of them. -/
theorem classifiers_overlap_counterexample :
    isSupportedBindReflectType (PtrTo exC) = true
    ∧ isSupportedBindInterfaceReflectType (PtrTo exC) = true
    ∧ isSupportedBindingKeyReflectType constantKindForReflectType (PtrTo exC) = true :=
  ⟨rfl, rfl, rfl⟩

/-- C17, as the code has it: the errors of `intermediateBinding.get`,
`verifyParameterCanBeInjected`, `verifyIsFunc` and `verifyIsTaggedFunc` carry
one tag, holding the offending binding key, function type, parameter type or
field type; the error of `bindingKey()` of a binding that is not an
`intermediateBinding` carries no tag. -/
theorem errors_carry_offender (ck : RType → Kind × Bool) :
    (∀ (this : intermediateBinding) (inj : injector W V),
      ∃ e, (this.get inj).2 = some e ∧ e.tags = [("bindingKey", .ofBindingKey this.bk)])
    ∧ (∀ t tag e, verifyParameterCanBeInjected ck t tag = some e →
        e.tags = [("parameterReflectType", .ofType t)])
    ∧ (∀ t e, verifyIsFunc ck t = some (some e) →
        e.tags = [("funcReflectType", .ofType t)]
        ∨ ∃ ins p, t.Ins = some ins ∧ p ∈ ins
            ∧ e.tags = [("parameterReflectType", .ofType (normalized p))])
    ∧ (∀ t e, verifyIsTaggedFunc ck t = some (some e) →
        e.tags = [("funcReflectType", .ofType t)]
        ∨ ∃ s fields fld, t.Ins = some [s] ∧ s.Fields = some fields ∧ fld ∈ fields
            ∧ e.tags = [("parameterReflectType", .ofType (normalized fld.Type))])
    ∧ (∀ b : binding W V, (¬ ∃ this : intermediateBinding, b = .ofIntermediate this) →
        ∃ e, b.bindingKey.2 = some e ∧ e.tags = []) := by
  refine ⟨?_, ?_, ?_, ?_, ?_⟩
  · intro this inj
    exact ⟨_, rfl, rfl⟩
  · intro t tag e h
    rw [verifyParameter_error ck t tag e h]
    rfl
  · intro t e h
    by_cases hk : t.Kind = Kind.func
    · obtain ⟨ins, hins⟩ := (ins_of_kind_func t).mp hk
      rw [verifyIsFunc_of_func ck t ins hins] at h
      obtain ⟨p, hp, he⟩ := verifyIsFunc_loop_error ck ins e (Option.some.inj h)
      exact Or.inr ⟨ins, p, hins, hp, by rw [he]; rfl⟩
    · rw [verifyIsFunc_of_not_func ck t hk] at h
      have he := Option.some.inj (Option.some.inj h)
      exact Or.inl (by rw [← he]; rfl)
  · intro t e h
    by_cases hk : t.Kind = Kind.func
    · obtain ⟨ins, hins⟩ := (ins_of_kind_func t).mp hk
      rcases verifyIsTaggedFunc_of_func ck t ins hins with h1 | ⟨s, fields, hs, hfields, _, h1⟩
      · rw [h1] at h
        have he := Option.some.inj (Option.some.inj h)
        exact Or.inl (by rw [← he]; rfl)
      · rw [h1] at h
        obtain ⟨fld, hfld, he⟩ := verifyStruct_loop_error ck fields e (Option.some.inj h)
        exact Or.inr ⟨s, fields, fld, by rw [hins, hs], hfields, hfld, by rw [he]; rfl⟩
    · rw [verifyIsTaggedFunc_of_not_func ck t hk] at h
      have he := Option.some.inj (Option.some.inj h)
      exact Or.inl (by rw [← he]; rfl)
  · intro b hb
    cases b with
    | ofIntermediate this => exact absurd ⟨this, rfl⟩ hb
    | ofSingleton this => exact ⟨_, rfl, rfl⟩
    | ofConstructor this => exact ⟨_, rfl, rfl⟩
    | ofSingletonConstructor this => exact ⟨_, rfl, rfl⟩

/-- An instance of C17 as the code has it: the error of `func(A, int, string)`
carries the type `int`. -/
theorem errors_carry_offender_witness :
    (GoError.injectError injectErrorTypeNotSupportedYet
        [("parameterReflectType", .ofType exInt)]).tags
      = [("parameterReflectType", .ofType exInt)] :=
  (errors_carry_offender (W := Nat) (V := Nat) constantKindForReflectType).2.1 exInt ""
    (.injectError injectErrorTypeNotSupportedYet [("parameterReflectType", .ofType exInt)]) rfl

/-- C17 as stated fails: the errors that `bindingKey()` returns for a
`singletonBinding`, a `constructorBinding` and a `singletonConstructorBinding`
are built without any tag. -/
theorem errors_carry_offender_counterexample :
    (newSingletonBinding (some 1) : binding Nat Nat).bindingKey
        = (none, some (.injectError InjectErrorTypeFinalBinding []))
    ∧ (newConstructorBinding exCtorAC).bindingKey
        = (none, some (.injectError InjectErrorTypeFinalBinding []))
    ∧ (newSingletonConstructorBinding exCtorAC).bindingKey
        = (none, some (.injectError InjectErrorTypeFinalBinding []))
    ∧ (GoError.injectError InjectErrorTypeFinalBinding []).tags = [] :=
  ⟨rfl, rfl, rfl, rfl⟩

/-- C18: a singleton binding returns its value. For every value `v`, nil
included, `newSingletonBinding(v).get` returns `(v, nil)` for every injector,
the nil pointer included; the call has no event and leaves the binding and
the world state as they were, and any number of calls return `(v, nil)`. -/
theorem singletonBinding_get_value (Injector : RType) (rt : Reflect V) (v : Option V) :
    (∀ inj : Option (injector W V), (⟨v⟩ : singletonBinding V).get inj = (v, none))
    ∧ (⟨v⟩ : singletonBinding V).get (none : Option (injector W V)) = (v, none)
    ∧ (∀ (inj : injector W V) (w : W),
        (newSingletonBinding v : binding W V).get Injector rt inj w
          = (newSingletonBinding v, ⟨some (v, none), w, []⟩))
    ∧ (∀ (injs : List (injector W V)) (w : W),
        binding.gets Injector rt (newSingletonBinding v) injs w
          = (List.replicate injs.length (some (v, none)), newSingletonBinding v, w, [])) := by
  refine ⟨fun _ => rfl, rfl, fun _ _ => rfl, ?_⟩
  intro injs w
  induction injs with
  | nil => rfl
  | cons inj rest ih =>
    simp only [newSingletonBinding] at ih
    simp [binding.gets, binding.get, newSingletonBinding, singletonBinding.get, ih,
      List.replicate_succ]

/-! ## Resolution against the derived keys -/

/-- The lookups of two traces in a row. -/
theorem lookups_append (a b : List (Event W V)) : lookups (a ++ b) = lookups a ++ lookups b := by
  induction a with
  | nil => rfl
  | cons ev rest ih => cases ev <;> simp [lookups, ih]

/-- The lookups of a trace made of the lookups of the normalized types. -/
theorem lookups_map (ts : List RType) :
    lookups (ts.map (fun t => (Event.lookup (normalized t) : Event W V))) = ts.map normalized := by
  induction ts with
  | nil => rfl
  | cons t rest ih => simp [lookups, ih]

/-- C19: resolution agrees with the derived identities. For a constructor
function, `getParameterBindingKeysForFunc` on its type returns one key for each
parameter. Outside the injector special case the types that
`constructorBinding.get` requests from the injector are, in order, the first
types of those keys (the key types are the requested types followed by some
rest), and when the injector answers every parameter they are exactly the
types of the keys. In the special case there is one key and `get` requests
nothing. -/
theorem lookups_agree_with_keys (Injector : RType) (rt : Reflect V)
    (this : constructorBinding W V) (inj : injector W V) (w : W) :
    ∃ keys, getParameterBindingKeysForFunc this.constructor.TypeOf = some keys
      ∧ keys.length = this.constructor.ins.length
      ∧ (takesInjector Injector this.constructor.ins = false →
          (∃ rest, keys.map (fun k => k.reflectType)
              = lookups (this.get Injector rt inj w).trace ++ rest)
          ∧ (∀ vs w1, Resolves inj this.constructor.ins w vs w1 →
              lookups (this.get Injector rt inj w).trace
                = keys.map (fun k => k.reflectType)))
      ∧ (takesInjector Injector this.constructor.ins = true →
          keys.length = 1 ∧ lookups (this.get Injector rt inj w).trace = []) := by
  have hkeys : (this.constructor.ins.map (fun p => newBindingKey (normalized p))).map
      (fun k => k.reflectType) = this.constructor.ins.map normalized := by
    simp [newBindingKey]
  refine ⟨this.constructor.ins.map (fun p => newBindingKey (normalized p)), ?_, by simp, ?_, ?_⟩
  · simp [getParameterBindingKeysForFunc, Func.TypeOf, RType.Ins, RType.shape, normalized]
  · intro h
    rw [hkeys]
    constructor
    · rcases get_cases Injector rt this inj w h with
        ⟨n, _, htr⟩ | ⟨vs, _, _, htr⟩ | ⟨vs, _, _, _, htr⟩
      · refine ⟨(this.constructor.ins.drop (n + 1)).map normalized, ?_⟩
        rw [htr, lookups_map, ← List.map_append, List.take_append_drop]
      · refine ⟨[], ?_⟩
        rw [htr, lookups_append, lookups_map]
        simp [lookups]
      · refine ⟨[], ?_⟩
        rw [htr, lookups_map]
        simp
    · intro vs w1 hres
      have hloop := loop_of_resolves inj this.constructor.ins w w1 vs hres
      have hres2 : (if takesInjector Injector this.constructor.ins = true
          then (Except.ok [Arg.ofInjector inj], w, [])
          else constructorBinding.get.loop inj this.constructor.ins w)
          = (.ok (vs.map Arg.ofValue), w1,
              this.constructor.ins.map (fun t => Event.lookup (normalized t))) := by
        simp [h, hloop]
      cases haccept : callAccepts rt this.constructor.ins
          (vs.map Arg.ofValue : List (Arg W V)) with
      | true =>
        rw [(get_of_accepted Injector rt this inj w w1 _ _ hres2 haccept).1, lookups_append,
          lookups_map]
        simp [lookups]
      | false =>
        rw [get_of_rejected Injector rt this inj w w1 _ _ hres2 haccept, lookups_map]
  · intro h
    constructor
    · rcases hins : this.constructor.ins with _ | ⟨a, _ | ⟨b, l⟩⟩ <;>
        simp [hins, takesInjector] at h ⊢
    · cases haccept : callAccepts rt this.constructor.ins [Arg.ofInjector inj] with
      | true =>
        rw [(get_special Injector rt this inj w h).1 haccept]
        rfl
      | false =>
        rw [((get_special Injector rt this inj w h).2 haccept).2]
        rfl

/-- C20: validated shapes yield only legal identities. If `verifyIsFunc`
returns nil on `f`, then `getParameterBindingKeysForFunc(f)` returns keys, all
untagged, whose types pass `isSupportedNoTagParameterReflectType` and so
`isSupportedBindingKeyReflectType`. If `verifyIsTaggedFunc` returns nil on `f`,
then `getParameterBindingKeysForTaggedFunc(f)` returns keys whose types pass
`isSupportedBindingKeyReflectType`, and pass
`isSupportedNoTagParameterReflectType` when the key is untagged. -/
theorem validated_keys_legal (ck : RType → Kind × Bool) (f : RType) :
    (verifyIsFunc ck f = some none →
      ∃ keys, getParameterBindingKeysForFunc f = some keys
        ∧ ∀ k ∈ keys, k.tag = ""
          ∧ isSupportedNoTagParameterReflectType k.reflectType = true
          ∧ isSupportedBindingKeyReflectType ck k.reflectType = true)
    ∧ (verifyIsTaggedFunc ck f = some none →
      ∃ keys, getParameterBindingKeysForTaggedFunc f = some keys
        ∧ ∀ k ∈ keys, isSupportedBindingKeyReflectType ck k.reflectType = true
          ∧ (k.tag = "" → isSupportedNoTagParameterReflectType k.reflectType = true)) := by
  constructor
  · intro h
    by_cases hk : f.Kind = Kind.func
    · obtain ⟨ins, hins⟩ := (ins_of_kind_func f).mp hk
      rw [verifyIsFunc_of_func ck f ins hins] at h
      have hall := (verifyIsFunc_loop_none_iff ck ins).mp (Option.some.inj h)
      refine ⟨ins.map (fun p => newBindingKey (normalized p)), ?_, ?_⟩
      · simp [getParameterBindingKeysForFunc, hins, normalized]
      · intro k hkmem
        obtain ⟨p, hp, rfl⟩ := List.mem_map.mp hkmem
        have hpar := (verifyIsFunc_parameter_iff ck p).mpr (hall p hp)
        have hnt : isSupportedNoTagParameterReflectType (normalized p) = true := by
          rcases (verifyParameter_none_iff ck (normalized p) "").mp hpar with ⟨_, h1⟩ | ⟨h1, _⟩
          · exact h1
          · exact absurd rfl h1
        refine ⟨rfl, hnt, ?_⟩
        simp only [isSupportedNoTagParameterReflectType, newBindingKey] at hnt ⊢
        simp [isSupportedBindingKeyReflectType, hnt]
    · rw [verifyIsFunc_of_not_func ck f hk] at h
      simp at h
  · intro h
    by_cases hk : f.Kind = Kind.func
    · obtain ⟨ins, hins⟩ := (ins_of_kind_func f).mp hk
      rcases verifyIsTaggedFunc_of_func ck f ins hins with h1 | ⟨s, fields, hs, hfields, _, h1⟩
      · rw [h1] at h
        simp at h
      · rw [h1] at h
        have hall := (verifyStruct_loop_none_iff ck fields).mp (Option.some.inj h)
        subst hs
        refine ⟨fields.map (fun structField =>
          if (getStructFieldReflectTypeAndTag structField).2 ≠ "" then
            newTaggedBindingKey (getStructFieldReflectTypeAndTag structField).1
              (getStructFieldReflectTypeAndTag structField).2
          else newBindingKey (getStructFieldReflectTypeAndTag structField).1), ?_, ?_⟩
        · simp [getParameterBindingKeysForTaggedFunc, getStructFieldBindingKeys, RType.In,
            hins, hfields]
        · intro k hkmem
          obtain ⟨fld, hfld, rfl⟩ := List.mem_map.mp hkmem
          rcases (verifyParameter_none_iff ck _ _).mp (hall fld hfld) with ⟨htag, hnt⟩ | ⟨htag, hbk⟩
          · simp only [isSupportedNoTagParameterReflectType] at hnt
            simp [htag, newBindingKey, isSupportedBindingKeyReflectType,
              isSupportedNoTagParameterReflectType, hnt]
          · simp [htag, newTaggedBindingKey, hbk]
    · rw [verifyIsTaggedFunc_of_not_func ck f hk] at h
      simp at h

end inject
